import Mathlib

/-!
# golb: round-robin server pool, retry/fallback coordinator and health record

A shallow embedding of `pkg/golb/golb.go` and `pkg/golb/instance.go`.

* A `*Server` is represented by its index in `ServerPool.Servers` (pointer identity
  inside the slice); the unexported back-reference `Server.pool` is the pool the
  index is taken in.
* `ServerPool.curr` is a `uint64`: a natural number, every write reduced modulo `2^64`.
* Values kept in the request context are Go `int`s (64 bit): integers, with the
  additions of the source wrapped into the signed 64-bit range.
* A run-time panic of the Go code (integer division by zero, index out of range) is a
  `Fault`.
* The handlers of the source only ever call each other in tail position, so one request
  is a small state machine: `Call` names the function that runs next, `step` runs the
  body of that function, `run` iterates.
-/

namespace Golb

/-! ## Constants (golb.go, lines 14-22) -/

def MaxRetryCount : Int := 3

def MaxAttemptCount : Int := 3

/-- The modulus of the `uint64` cursor. -/
def U64 : Nat := 2 ^ 64

/-! ## Data model (golb.go, lines 24-32 and 100-103) -/

/-- The fields of `Server` that the core reads or writes. `ReverseProxy` is bound to the
server itself and `pool` to the enclosing pool, so neither is stored. -/
structure Server where
  Name : String
  URL : String
  Alive : Bool
  deriving DecidableEq, Repr

structure ServerPool where
  Servers : List Server
  curr : Nat
  deriving DecidableEq, Repr

/-- Run-time panics of the Go code. -/
inductive Fault where
  | divideByZero
  | indexOutOfRange
  deriving DecidableEq, Repr

deriving instance DecidableEq for Except

/-- `Server.IsAlive` (the lock is invisible in a sequential run). -/
def Server.IsAlive (s : Server) : Bool := s.Alive

/-- `Server.SetAlive`. -/
def Server.SetAlive (s : Server) (alive : Bool) : Server := { s with Alive := alive }

/-- `sp.Servers[idx].SetAlive(alive)`: the write through the pointer of target `idx`. -/
def ServerPool.setAliveAt (sp : ServerPool) (idx : Nat) (alive : Bool) : ServerPool :=
  { sp with Servers := sp.Servers.modify (fun s => s.SetAlive alive) idx }

/-! ## Selection (golb.go, lines 129-150) -/

/-- `ServerPool.NextIndex`: `atomic.AddUint64(&sp.curr, 1)` stores and returns the
incremented cursor; the remainder by `len(sp.Servers)` panics when the pool is empty
(the store has happened by then). -/
def ServerPool.NextIndex (sp : ServerPool) : ServerPool × Except Fault Nat :=
  let c := (sp.curr + 1) % U64
  let sp1 : ServerPool := { sp with curr := c }
  if sp.Servers.length = 0 then (sp1, .error .divideByZero)
  else (sp1, .ok (c % sp.Servers.length))

/-- The `for i := next; i < length; i++` loop of `ServerPool.Next`; `steps` is the
number of iterations left, `length - i`. -/
def ServerPool.scan (sp : ServerPool) (n next : Nat) :
    Nat → Nat → ServerPool × Except Fault (Option Nat)
  | 0, _ => (sp, .ok none)
  | steps + 1, i =>
    let idx := i % n
    match sp.Servers[idx]? with
    | none => (sp, .error .indexOutOfRange)
    | some s =>
      if s.IsAlive then
        (if i ≠ next then { sp with curr := idx % U64 } else sp, .ok (some idx))
      else ServerPool.scan sp n next steps (i + 1)

/-- `ServerPool.Next`: the selected target (as its index), `none` for Go's `nil`. -/
def ServerPool.Next (sp : ServerPool) : ServerPool × Except Fault (Option Nat) :=
  let n := sp.Servers.length
  match sp.NextIndex with
  | (sp1, .error f) => (sp1, .error f)
  | (sp1, .ok next) =>
    let length := n + next
    ServerPool.scan sp1 n next (length - next) next

/-- Liveness flag of the target at `idx`, read as by `sp.Servers[idx].IsAlive()`;
`false` outside the slice. -/
def ServerPool.aliveAt (sp : ServerPool) (idx : Nat) : Bool :=
  match sp.Servers[idx]? with
  | some s => s.IsAlive
  | none => false

/-! ## Request context (golb.go, lines 19-22 and 46-58) -/

/-- A request, reduced to the two values the package keeps in its context:
`retry` under `RetryContextKey`, `attempt` under `AttemptContextKey`; `none` when the
key is absent. -/
structure Request where
  retry : Option Int
  attempt : Option Int
  deriving DecidableEq, Repr

/-- Result of a Go `int` addition: the sum wrapped into the signed 64-bit range. -/
def wrapInt (x : Int) : Int := (x + 2 ^ 63) % 2 ^ 64 - 2 ^ 63

/-- `Server.getRetryCount`. -/
def Server.getRetryCount (req : Request) : Int :=
  match req.retry with
  | some retries => retries
  | none => 0

/-- `Server.getAttemptCount`. -/
def Server.getAttemptCount (req : Request) : Int :=
  match req.attempt with
  | some retries => retries
  | none => 0

/-! ## One request as a state machine (golb.go, lines 60-91 and 152-160) -/

/-- What ends the handling of a request. -/
inductive Outcome where
  /-- The response `http.Error(res, ..., http.StatusServiceUnavailable)`. -/
  | serviceUnavailable
  /-- The forward to target `idx` did not fail: the upstream response is relayed. -/
  | proxied (idx : Nat)
  /-- The handler panicked. -/
  | panicked (f : Fault)
  deriving DecidableEq, Repr

/-- The function that runs next, with its arguments. Every call between the handlers
in the source is the last action of its caller. -/
inductive Call where
  /-- `sp.ServeHTTP(res, req)`. -/
  | ServeHTTP (req : Request)
  /-- `sp.Servers[idx].ReverseProxy.ServeHTTP(res, req)`. -/
  | ProxyServeHTTP (idx : Nat) (req : Request)
  /-- `sp.Servers[idx].ErrorHandler(res, req, err)`. -/
  | ErrorHandler (idx : Nat) (req : Request)
  /-- `sp.Servers[idx].FallbackHandler(res, req)`. -/
  | FallbackHandler (idx : Nat) (req : Request)
  | done (r : Outcome)
  deriving DecidableEq, Repr

/-- Observable actions, in the order they happen. -/
inductive Event where
  /-- The request entered `ServerPool.ServeHTTP`. -/
  | dispatch (req : Request)
  /-- The request was handed to the proxying mechanism of target `idx`. -/
  | forward (idx : Nat) (req : Request)
  /-- The forward to target `idx` ended in a transport error: `ErrorHandler` runs. -/
  | transportError (idx : Nat) (req : Request)
  /-- The backoff `time.Sleep(time.Millisecond * 10)`. -/
  | sleep
  /-- The write `SetAlive(alive)` on target `idx`. -/
  | setAlive (idx : Nat) (alive : Bool)
  /-- The request entered `FallbackHandler` of target `idx`. -/
  | fallback (idx : Nat) (req : Request)
  /-- A 503 response was written. -/
  | respond503
  /-- The response of target `idx` was relayed. -/
  | relayed (idx : Nat)
  | crashed (f : Fault)
  deriving DecidableEq, Repr

/-- Behaviour of the upstreams: `up idx k = true` when the forward to target `idx` that is
the `k`-th forward of the run (counted from 0) ends in a transport error. -/
abbrev Upstream := Nat → Nat → Bool

/-- The pool, the number of forwards made so far, and the events so far. -/
structure Machine where
  pool : ServerPool
  sent : Nat
  trace : List Event
  deriving DecidableEq, Repr

def Machine.emit (m : Machine) (e : Event) : Machine :=
  { m with trace := m.trace ++ [e] }

/-- `ServerPool.ServeHTTP`. -/
def ServerPool.ServeHTTP (req : Request) (m : Machine) : Call × Machine :=
  let m := m.emit (.dispatch req)
  match m.pool.Next with
  | (sp, .error f) => (.done (.panicked f), { m with pool := sp }.emit (.crashed f))
  | (sp, .ok (some peer)) => (.ProxyServeHTTP peer req, { m with pool := sp })
  | (sp, .ok none) => (.done .serviceUnavailable, { m with pool := sp }.emit .respond503)

/-- The proxying mechanism of target `idx` (`httputil.ReverseProxy.ServeHTTP`, standard
library): it forwards the request; a transport error is handed, with the request, to the
error callback, which `AddServer` binds to `Server.ErrorHandler` of the same target;
otherwise the upstream response is relayed. -/
def ReverseProxy.ServeHTTP (up : Upstream) (idx : Nat) (req : Request) (m : Machine) :
    Call × Machine :=
  let m1 := { m.emit (.forward idx req) with sent := m.sent + 1 }
  if up idx m.sent then (.ErrorHandler idx req, m1)
  else (.done (.proxied idx), m1.emit (.relayed idx))

/-- `Server.FallbackHandler` of target `idx`. -/
def Server.FallbackHandler (idx : Nat) (req : Request) (m : Machine) : Call × Machine :=
  let m := m.emit (.fallback idx req)
  let attempts := Server.getAttemptCount req
  if attempts ≥ MaxAttemptCount then
    (.done .serviceUnavailable, m.emit .respond503)
  else
    (.ServeHTTP { req with attempt := some (wrapInt (attempts + 1)) }, m)

/-- `Server.ErrorHandler` of target `idx`. -/
def Server.ErrorHandler (idx : Nat) (req : Request) (m : Machine) : Call × Machine :=
  let m := m.emit (.transportError idx req)
  let retries := Server.getRetryCount req
  if retries < MaxRetryCount then
    let m := m.emit .sleep
    let retries := wrapInt (retries + 1)
    (.ProxyServeHTTP idx { req with retry := some retries }, m)
  else
    let m := { m with pool := m.pool.setAliveAt idx false }.emit (.setAlive idx false)
    let attempts := Server.getAttemptCount req
    (.FallbackHandler idx { req with attempt := some (wrapInt (attempts + 1)) }, m)

/-- One function body. -/
def step (up : Upstream) : Call → Machine → Call × Machine
  | .ServeHTTP req, m => ServerPool.ServeHTTP req m
  | .ProxyServeHTTP idx req, m => ReverseProxy.ServeHTTP up idx req m
  | .ErrorHandler idx req, m => Server.ErrorHandler idx req m
  | .FallbackHandler idx req, m => Server.FallbackHandler idx req m
  | .done r, m => (.done r, m)

/-- The handling of a request from the call `c` on, at most `fuel` function bodies. -/
def run (up : Upstream) : Nat → Call → Machine → Call × Machine
  | 0, c, m => (c, m)
  | _ + 1, .done r, m => (.done r, m)
  | fuel + 1, c, m => run up fuel (step up c m).1 (step up c m).2

/-- Sequential `Next` calls: the targets returned by `m` calls in a row, and the pool
after them. A panic ends the sequence. -/
def ServerPool.NextN : Nat → ServerPool → List (Option Nat) × ServerPool
  | 0, sp => ([], sp)
  | m + 1, sp =>
    match sp.Next with
    | (sp1, .ok r) => (r :: (ServerPool.NextN m sp1).1, (ServerPool.NextN m sp1).2)
    | (sp1, .error _) => ([], sp1)

/-- Indices of the alive targets, in pool order. -/
def ServerPool.aliveIdxs (sp : ServerPool) : List Nat :=
  (List.range sp.Servers.length).filter (fun i => sp.aliveAt i)

/-- The index `idx` is the first alive position of the circular scan that starts at
position `s mod len`: it is alive, it lies `j < len` positions after the start, and the
`j` positions before it are dead. -/
def ServerPool.FirstAlive (sp : ServerPool) (s idx : Nat) : Prop :=
  ∃ j, j < sp.Servers.length ∧ (idx = (s + j) % sp.Servers.length ∧ sp.aliveAt idx = true ∧
    ∀ k, k < j → sp.aliveAt ((s + k) % sp.Servers.length) = false)

instance (sp : ServerPool) (s idx : Nat) : Decidable (sp.FirstAlive s idx) := by
  unfold ServerPool.FirstAlive
  infer_instance

/-! ## Health record (instance.go) -/

/-- `InstanceStatus`; the free-form `details` are kept as text. -/
structure InstanceStatus where
  Status : Bool
  Details : List (String × String)
  deriving DecidableEq, Repr

/-- `InstanceInfo`. URLs are text, `time.Time` is a number, an `error` is its message;
`none` is Go's `nil`. `HealthCheckURL` is taken non-nil. -/
structure InstanceInfo where
  ID : Int
  Name : String
  Alive : Bool
  URL : String
  HealthCheckURL : String
  LastUTCTimestsamp : Option Nat
  LastErrorUTCTimestamp : Option Nat
  LastError : Option String
  LastInstanceStatus : Option InstanceStatus
  deriving DecidableEq, Repr

/-- What one poll meets. -/
inductive PollResult where
  /-- `http.NewRequestWithContext` returned the error `err`. -/
  | requestError (err : String)
  /-- `client.Do` returned the error `err` (timeout and cancellation included). -/
  | transportError (err : String)
  /-- `client.Do` returned a response with status `statusCode`; `body` is what
  `json.NewDecoder(res.Body).Decode` makes of its body. -/
  | response (statusCode : Nat) (body : Except String InstanceStatus)
  deriving Repr

/-- `InstanceInfo.updateStatus`. -/
def InstanceInfo.updateStatus (inst : InstanceInfo) (alive : Bool)
    (timestamp : Nat) (err : Option String) : InstanceInfo :=
  let inst := { inst with Alive := alive, LastUTCTimestsamp := some timestamp }
  match err with
  | some e => { inst with LastError := some e, LastErrorUTCTimestamp := some timestamp }
  | none => inst

/-- `InstanceInfo.runHealthCheck`, with `timestamp` the value of `time.Now().UTC()` and
`poll` what the request meets. -/
def InstanceInfo.runHealthCheck (inst : InstanceInfo) (timestamp : Nat)
    (poll : PollResult) : InstanceInfo :=
  match poll with
  | .requestError err => inst.updateStatus false timestamp (some err)
  | .transportError err => inst.updateStatus false timestamp (some err)
  | .response statusCode body =>
    if statusCode ≠ 200 then inst.updateStatus false timestamp none
    else
      match body with
      | .error err => inst.updateStatus false timestamp (some err)
      | .ok instanceStatus =>
        let inst := inst.updateStatus instanceStatus.Status timestamp none
        { inst with LastInstanceStatus := some instanceStatus }

/-- The non-nil error a poll ends with, if any: the `err` that `runHealthCheck` hands to
`updateStatus`. A response with a status other than 200 ends the poll with a nil error,
and its body is not decoded. -/
def PollResult.err : PollResult → Option String
  | .requestError err => some err
  | .transportError err => some err
  | .response statusCode body =>
    if statusCode ≠ 200 then none
    else
      match body with
      | .error err => some err
      | .ok _ => none

/-- The payload of a successful poll: a 200 response whose body decodes. `none` for a
poll that fails. -/
def PollResult.payload : PollResult → Option InstanceStatus
  | .response statusCode (.ok p) => if statusCode = 200 then some p else none
  | _ => none

/-- The polls of the monitor loop, one per tick, in order: each entry is the timestamp of
a poll and what the poll meets. -/
def InstanceInfo.runPolls (inst : InstanceInfo) : List (Nat × PollResult) → InstanceInfo
  | [] => inst
  | (timestamp, poll) :: rest =>
    InstanceInfo.runPolls (inst.runHealthCheck timestamp poll) rest

/-! ## Registration of a target (golb.go, lines 105-127) -/

/-- `ServerPool.AddServer`. `parse` is `url.Parse` of the standard library: the parsed
URL or the error. The result is the pool afterwards and the returned `error` (`none`
for `nil`). -/
def ServerPool.AddServer (parse : String → Except String String) (sp : ServerPool)
    (name rawUrl : String) : ServerPool × Option String :=
  let s : Server := { Name := name, URL := "", Alive := true }
  match parse rawUrl with
  | .error err => (sp, some err)
  | .ok url =>
    let s := { s with URL := url }
    ({ sp with Servers := sp.Servers ++ [s] }, none)

/-! ## Measures on the event trace -/

/-- Number of times the request was handed to a proxying mechanism. -/
def forwardCount (trace : List Event) : Nat :=
  trace.countP (fun e => match e with
    | .forward _ _ => true
    | _ => false)

/-- Number of times the request was handed to the proxying mechanism of target `idx`. -/
def forwardCountTo (idx : Nat) (trace : List Event) : Nat :=
  trace.countP (fun e => match e with
    | .forward i _ => i == idx
    | _ => false)

/-- Number of `SetAlive(false)` writes. -/
def markedDeadCount (trace : List Event) : Nat :=
  trace.countP (fun e => match e with
    | .setAlive _ false => true
    | _ => false)

/-- Number of backoff sleeps, one per retry. -/
def retryCount (trace : List Event) : Nat :=
  trace.countP (fun e => match e with
    | .sleep => true
    | _ => false)

/-! ## Concrete pools and requests used in the examples -/

/-- Two targets, the second one dead, fresh cursor. -/
def poolOneDead : ServerPool :=
  ⟨[⟨"server1", "http://127.0.0.1:8001", true⟩, ⟨"server2", "http://127.0.0.1:8002", false⟩], 0⟩

/-- Three targets, only the last one alive, cursor 3. -/
def poolLastAlive : ServerPool :=
  ⟨[⟨"a", "http://a", false⟩, ⟨"b", "http://b", false⟩, ⟨"c", "http://c", true⟩], 3⟩

/-- Five targets, those at the even indices alive, cursor 7. -/
def poolEvenAlive : ServerPool :=
  ⟨[⟨"a", "http://a", true⟩, ⟨"b", "http://b", false⟩, ⟨"c", "http://c", true⟩,
    ⟨"d", "http://d", false⟩, ⟨"e", "http://e", true⟩], 7⟩

/-- Three alive targets, the cursor two increments before the `uint64` wrap-around. -/
def poolNearWrap : ServerPool :=
  ⟨[⟨"a", "http://a", true⟩, ⟨"b", "http://b", true⟩, ⟨"c", "http://c", true⟩], 2 ^ 64 - 2⟩

/-- A request with no counter in its context. -/
def freshRequest : Request := ⟨none, none⟩

/-- Upstreams whose every forward ends in a transport error. -/
def upAlwaysFail : Upstream := fun _ _ => true

/-- The sole target of the retry test (`http://127.0.0.1:1`). -/
def badServer : Server := ⟨"badServer", "http://127.0.0.1:1", true⟩

/-- Two alive targets, fresh cursor. -/
def poolBothAlive : ServerPool :=
  ⟨[⟨"server1", "http://127.0.0.1:8001", true⟩, ⟨"server2", "http://127.0.0.1:8002", true⟩], 0⟩

/-- Two targets, the first one alive, cursor 10. -/
def poolSkipBack : ServerPool :=
  ⟨[⟨"a", "http://a", true⟩, ⟨"b", "http://b", false⟩], 10⟩

/-- An instance that has never been polled. -/
def freshInstance : InstanceInfo :=
  { ID := 1, Name := "Test", Alive := true, URL := "http://127.0.0.1:9000",
    HealthCheckURL := "http://127.0.0.1:9000/health", LastUTCTimestsamp := none,
    LastErrorUTCTimestamp := none, LastError := none, LastInstanceStatus := none }

/-- An instance whose poll at time 5 timed out. -/
def timedOutInstance : InstanceInfo :=
  { freshInstance with
    Alive := false
    LastUTCTimestsamp := some 5
    LastErrorUTCTimestamp := some 5
    LastError := some "context deadline exceeded" }

/-- A stand-in for `url.Parse` that rejects one malformed address. -/
def sampleParse (rawUrl : String) : Except String String :=
  if rawUrl = "http://[::1" then .error "missing ']' in host" else .ok rawUrl

/-! ## Selection: facts about the scan loop -/

theorem scan_servers (sp : ServerPool) (n next : Nat) :
    ∀ steps i, (ServerPool.scan sp n next steps i).1.Servers = sp.Servers := by
  intro steps
  induction steps with
  | zero => intro i; rfl
  | succ k ih =>
    intro i
    simp only [ServerPool.scan]
    cases hg : sp.Servers[i % n]? with
    | none => rfl
    | some s =>
      by_cases ha : s.IsAlive = true
      · simp only [ha, if_true]
        by_cases hi : i ≠ next <;> simp [hi]
      · simp only [ha]
        exact ih (i + 1)

theorem scan_none (sp : ServerPool) (n next : Nat) (hn : n = sp.Servers.length)
    (hpos : 0 < n) :
    ∀ steps i, (∀ k, k < steps → sp.aliveAt ((i + k) % n) = false) →
      ServerPool.scan sp n next steps i = (sp, .ok none) := by
  intro steps
  induction steps with
  | zero => intro i _; rfl
  | succ m ih =>
    intro i h
    have hlt : i % n < sp.Servers.length := hn ▸ Nat.mod_lt i hpos
    have h0 := h 0 (Nat.succ_pos m)
    simp only [Nat.add_zero, ServerPool.aliveAt, List.getElem?_eq_getElem hlt] at h0
    simp only [ServerPool.scan, List.getElem?_eq_getElem hlt, h0]
    apply ih (i + 1)
    intro k hk
    have := h (k + 1) (Nat.succ_lt_succ hk)
    rwa [show i + (k + 1) = i + 1 + k by omega] at this

theorem scan_some (sp : ServerPool) (n next : Nat) (hn : n = sp.Servers.length)
    (hpos : 0 < n) :
    ∀ steps i j, j < steps → sp.aliveAt ((i + j) % n) = true →
      (∀ k, k < j → sp.aliveAt ((i + k) % n) = false) →
      ServerPool.scan sp n next steps i =
        (if i + j ≠ next then { sp with curr := ((i + j) % n) % U64 } else sp,
          .ok (some ((i + j) % n))) := by
  intro steps
  induction steps with
  | zero => intro i j hj; omega
  | succ m ih =>
    intro i j hj ha hd
    have hlt : i % n < sp.Servers.length := hn ▸ Nat.mod_lt i hpos
    cases j with
    | zero =>
      simp only [Nat.add_zero, ServerPool.aliveAt, List.getElem?_eq_getElem hlt] at ha
      simp only [ServerPool.scan, List.getElem?_eq_getElem hlt, ha, if_true, Nat.add_zero]
    | succ j =>
      have h0 := hd 0 (Nat.succ_pos j)
      simp only [Nat.add_zero, ServerPool.aliveAt, List.getElem?_eq_getElem hlt] at h0
      simp only [ServerPool.scan, List.getElem?_eq_getElem hlt, h0]
      have e : i + (j + 1) = i + 1 + j := by omega
      rw [e]
      apply ih (i + 1) j (by omega)
      · rwa [e] at ha
      · intro k hk
        have := hd (k + 1) (Nat.succ_lt_succ hk)
        rwa [show i + (k + 1) = i + 1 + k by omega] at this

theorem aliveAt_curr (sp : ServerPool) (c i : Nat) :
    ServerPool.aliveAt { sp with curr := c } i = sp.aliveAt i := rfl

theorem Next_servers (sp : ServerPool) : sp.Next.1.Servers = sp.Servers := by
  unfold ServerPool.Next ServerPool.NextIndex
  by_cases h : sp.Servers.length = 0
  · simp [h]
  · simp only [h, if_false]
    rw [scan_servers]

/-- With a non-empty pool, when the first alive position of the circular scan is the
`j`-th one after the incremented cursor, `Next` returns it; the cursor is the incremented
one when `j = 0` and the index found otherwise. -/
theorem Next_some (sp : ServerPool) (hne : sp.Servers ≠ []) (j : Nat)
    (hj : j < sp.Servers.length)
    (ha : sp.aliveAt (((sp.curr + 1) % U64 + j) % sp.Servers.length) = true)
    (hd : ∀ k, k < j → sp.aliveAt (((sp.curr + 1) % U64 + k) % sp.Servers.length) = false) :
    sp.Next =
      ({ sp with curr := if j = 0 then (sp.curr + 1) % U64
                         else (((sp.curr + 1) % U64 + j) % sp.Servers.length) % U64 },
        .ok (some (((sp.curr + 1) % U64 + j) % sp.Servers.length))) := by
  have hpos : 0 < sp.Servers.length := List.length_pos.mpr hne
  have hlen : sp.Servers.length ≠ 0 := Nat.pos_iff_ne_zero.mp hpos
  unfold ServerPool.Next ServerPool.NextIndex
  simp only [hlen, if_false]
  rw [show sp.Servers.length + (sp.curr + 1) % U64 % sp.Servers.length
        - (sp.curr + 1) % U64 % sp.Servers.length = sp.Servers.length by omega]
  have key := scan_some { sp with curr := (sp.curr + 1) % U64 } sp.Servers.length
    ((sp.curr + 1) % U64 % sp.Servers.length) rfl hpos sp.Servers.length
    ((sp.curr + 1) % U64 % sp.Servers.length) j hj
    (by rw [aliveAt_curr, Nat.mod_add_mod]; exact ha)
    (by intro k hk; rw [aliveAt_curr, Nat.mod_add_mod]; exact hd k hk)
  rw [key, Nat.mod_add_mod]
  by_cases hj0 : j = 0
  · subst hj0; simp
  · have : (sp.curr + 1) % U64 % sp.Servers.length + j ≠
        (sp.curr + 1) % U64 % sp.Servers.length := by omega
    simp [hj0, this]

/-- With a non-empty pool whose targets are all dead, `Next` returns nil and the cursor
is the incremented one. -/
theorem Next_none (sp : ServerPool) (hne : sp.Servers ≠ [])
    (hd : ∀ i, i < sp.Servers.length → sp.aliveAt i = false) :
    sp.Next = ({ sp with curr := (sp.curr + 1) % U64 }, .ok none) := by
  have hpos : 0 < sp.Servers.length := List.length_pos.mpr hne
  have hlen : sp.Servers.length ≠ 0 := Nat.pos_iff_ne_zero.mp hpos
  unfold ServerPool.Next ServerPool.NextIndex
  simp only [hlen, if_false]
  apply scan_none { sp with curr := (sp.curr + 1) % U64 } _ _ rfl hpos
  intro k _
  rw [aliveAt_curr]
  exact hd _ (Nat.mod_lt _ hpos)

theorem aliveAt_iff (sp : ServerPool) (i : Nat) :
    sp.aliveAt i = true ↔ ∃ s, sp.Servers[i]? = some s ∧ s.Alive = true := by
  unfold ServerPool.aliveAt
  cases h : sp.Servers[i]? with
  | none => simp
  | some s => simp [Server.IsAlive]

theorem aliveAt_lt (sp : ServerPool) (i : Nat) (h : sp.aliveAt i = true) :
    i < sp.Servers.length := by
  obtain ⟨s, hs, _⟩ := (aliveAt_iff sp i).mp h
  exact (List.getElem?_eq_some_iff.mp hs).1

theorem exists_alive_iff (sp : ServerPool) :
    (∃ s ∈ sp.Servers, s.Alive = true) ↔ ∃ i, i < sp.Servers.length ∧ sp.aliveAt i = true := by
  constructor
  · rintro ⟨s, hs, ha⟩
    obtain ⟨i, hi, rfl⟩ := List.getElem_of_mem hs
    exact ⟨i, hi, (aliveAt_iff sp i).mpr ⟨_, List.getElem?_eq_getElem hi, ha⟩⟩
  · rintro ⟨i, _, ha⟩
    obtain ⟨s, hs, hal⟩ := (aliveAt_iff sp i).mp ha
    exact ⟨s, List.getElem?_mem hs, hal⟩

theorem all_dead_iff (sp : ServerPool) :
    (∀ s ∈ sp.Servers, s.Alive = false) ↔ ∀ i, i < sp.Servers.length → sp.aliveAt i = false := by
  constructor
  · intro h i hi
    by_contra hc
    have hc1 : sp.aliveAt i = true := by simpa using hc
    obtain ⟨s, hs, hal⟩ := (exists_alive_iff sp).mpr ⟨i, hi, hc1⟩
    rw [h s hs] at hal
    exact Bool.noConfusion hal
  · intro h s hs
    by_contra hc
    have hc1 : s.Alive = true := by simpa using hc
    obtain ⟨i, hi, ha⟩ := (exists_alive_iff sp).mp ⟨s, hs, hc1⟩
    rw [h i hi] at ha
    exact Bool.noConfusion ha

/-- From any start `c`, an alive index is met within `n` positions of the circular scan,
and there is a first one. -/
theorem exists_first_alive (sp : ServerPool) (c : Nat)
    (h : ∃ i, i < sp.Servers.length ∧ sp.aliveAt i = true) :
    ∃ j, j < sp.Servers.length ∧ sp.aliveAt ((c + j) % sp.Servers.length) = true ∧
      ∀ k, k < j → sp.aliveAt ((c + k) % sp.Servers.length) = false := by
  obtain ⟨i, hi, ha⟩ := h
  have hpos : 0 < sp.Servers.length := by omega
  have hex : ∃ j, j < sp.Servers.length ∧
      sp.aliveAt ((c + j) % sp.Servers.length) = true := by
    refine ⟨(i + (sp.Servers.length - c % sp.Servers.length)) % sp.Servers.length,
      Nat.mod_lt _ hpos, ?_⟩
    have hc : c % sp.Servers.length < sp.Servers.length := Nat.mod_lt _ hpos
    have e : (c + (i + (sp.Servers.length - c % sp.Servers.length)) % sp.Servers.length)
        % sp.Servers.length = i := by
      rw [Nat.add_mod_mod, Nat.add_mod, show c % sp.Servers.length
        + (i + (sp.Servers.length - c % sp.Servers.length)) % sp.Servers.length
        = c % sp.Servers.length
        + (i + (sp.Servers.length - c % sp.Servers.length)) % sp.Servers.length from rfl]
      rw [Nat.add_mod_mod, show c % sp.Servers.length
        + (i + (sp.Servers.length - c % sp.Servers.length)) = i + sp.Servers.length by omega]
      rw [Nat.add_mod_right, Nat.mod_eq_of_lt hi]
    rw [e]; exact ha
  classical
  refine ⟨Nat.find hex, (Nat.find_spec hex).1, (Nat.find_spec hex).2, ?_⟩
  intro k hk
  have hmin := Nat.find_min hex hk
  have hkl : k < sp.Servers.length := lt_trans hk (Nat.find_spec hex).1
  by_contra hc
  exact hmin ⟨hkl, by simpa using hc⟩

/-! ## Claims about selection -/

/-- C1: for a non-empty pool and any cursor value, with the liveness flags unchanged by
the call, `Next` returns (no panic); the target it returns is alive (never a dead one);
it returns a target whenever some target of the pool is alive; and it returns nil if and
only if every target is dead. -/
theorem C1_Next_alive_or_nil (sp : ServerPool) (hne : sp.Servers ≠ []) :
    (∃ r, sp.Next.2 = .ok r) ∧
    sp.Next.1.Servers = sp.Servers ∧
    (∀ idx, sp.Next.2 = .ok (some idx) →
      ∃ s, sp.Servers[idx]? = some s ∧ s.Alive = true) ∧
    ((∃ s ∈ sp.Servers, s.Alive = true) →
      ∃ idx s, sp.Next.2 = .ok (some idx) ∧ sp.Servers[idx]? = some s ∧ s.Alive = true) ∧
    (sp.Next.2 = .ok none ↔ ∀ s ∈ sp.Servers, s.Alive = false) := by
  by_cases hal : ∃ i, i < sp.Servers.length ∧ sp.aliveAt i = true
  · obtain ⟨j, hj, ha, hd⟩ := exists_first_alive sp ((sp.curr + 1) % U64) hal
    have hN := Next_some sp hne j hj ha hd
    have hs := (aliveAt_iff sp _).mp ha
    refine ⟨⟨_, by rw [hN]⟩, Next_servers sp, ?_, ?_, ?_⟩
    · intro idx hidx
      rw [hN] at hidx
      injection hidx with h1
      injection h1 with h2
      rw [← h2]; exact hs
    · intro _
      obtain ⟨s, hs1, hs2⟩ := hs
      exact ⟨_, s, by rw [hN], hs1, hs2⟩
    · constructor
      · intro h; rw [hN] at h; injection h with h1; exact Option.noConfusion h1
      · intro h
        obtain ⟨i, hi, hai⟩ := hal
        rw [(all_dead_iff sp).mp h i hi] at hai
        exact Bool.noConfusion hai
  · have hd : ∀ i, i < sp.Servers.length → sp.aliveAt i = false := by
      intro i hi
      by_contra hc
      exact hal ⟨i, hi, by simpa using hc⟩
    have hN := Next_none sp hne hd
    refine ⟨⟨_, by rw [hN]⟩, Next_servers sp, ?_, ?_, ?_⟩
    · intro idx hidx
      rw [hN] at hidx
      injection hidx with h1
      exact Option.noConfusion h1
    · intro h
      exact absurd ((exists_alive_iff sp).mp h) hal
    · constructor
      · intro _; exact (all_dead_iff sp).mpr hd
      · intro _; rw [hN]

/-- Witness of C1: a pool of one alive and one dead target. -/
theorem C1_Next_alive_or_nil_witness :
    poolOneDead.Servers ≠ [] ∧
    (∃ r, poolOneDead.Next.2 = .ok r) ∧
    poolOneDead.Next.1.Servers = poolOneDead.Servers ∧
    (∀ idx, poolOneDead.Next.2 = .ok (some idx) →
      ∃ s, poolOneDead.Servers[idx]? = some s ∧ s.Alive = true) ∧
    ((∃ s ∈ poolOneDead.Servers, s.Alive = true) →
      ∃ idx s, poolOneDead.Next.2 = .ok (some idx) ∧ poolOneDead.Servers[idx]? = some s ∧
        s.Alive = true) ∧
    (poolOneDead.Next.2 = .ok none ↔ ∀ s ∈ poolOneDead.Servers, s.Alive = false) :=
  ⟨by decide, C1_Next_alive_or_nil poolOneDead (by decide)⟩

/-- C2: for a non-empty pool of length `len` with cursor `c`, let `c1` be the incremented
cursor (the value `atomic.AddUint64(&sp.curr, 1)` returns). `Next` returns the target at
the first alive index of the circular sequence `c1 mod len, (c1+1) mod len, ...,
(c1+len-1) mod len`: the alive target nearest to the start index `c1 mod len`, scanning
forward over at most `len` positions; when none of these `len` positions is alive it
returns nil. -/
theorem C2_Next_first_alive_from_start (sp : ServerPool) (hne : sp.Servers ≠ []) :
    (∀ j, j < sp.Servers.length →
      sp.aliveAt (((sp.curr + 1) % U64 + j) % sp.Servers.length) = true →
      (∀ k, k < j → sp.aliveAt (((sp.curr + 1) % U64 + k) % sp.Servers.length) = false) →
      sp.Next.2 = .ok (some (((sp.curr + 1) % U64 + j) % sp.Servers.length))) ∧
    ((∀ j, j < sp.Servers.length →
        sp.aliveAt (((sp.curr + 1) % U64 + j) % sp.Servers.length) = false) →
      sp.Next.2 = .ok none) ∧
    (sp.NextIndex.2 = .ok ((sp.curr + 1) % U64 % sp.Servers.length)) := by
  have hpos : 0 < sp.Servers.length := List.length_pos.mpr hne
  refine ⟨?_, ?_, ?_⟩
  · intro j hj ha hd
    rw [Next_some sp hne j hj ha hd]
  · intro h
    by_cases hal : ∃ i, i < sp.Servers.length ∧ sp.aliveAt i = true
    · obtain ⟨j, hj, ha, _⟩ := exists_first_alive sp ((sp.curr + 1) % U64) hal
      rw [h j hj] at ha
      exact Bool.noConfusion ha
    · have hd : ∀ i, i < sp.Servers.length → sp.aliveAt i = false := by
        intro i hi
        by_contra hc
        exact hal ⟨i, hi, by simpa using hc⟩
      rw [Next_none sp hne hd]
  · unfold ServerPool.NextIndex
    simp [Nat.pos_iff_ne_zero.mp hpos]

/-- Witness of C2: three targets, the first two dead, cursor 3: the scan starts at
index 1 and returns index 2. -/
theorem C2_Next_first_alive_from_start_witness :
    poolLastAlive.Servers ≠ [] ∧ poolLastAlive.Next.2 = .ok (some 2) :=
  ⟨by decide, (C2_Next_first_alive_from_start poolLastAlive (by decide)).1 1
    (by decide) (by decide) (by decide)⟩

/-- C4: on a pool with no targets `Next` does not return nil: the remainder by
`len(sp.Servers) = 0` in `NextIndex` panics, after the cursor was incremented. -/
theorem C4_Next_empty_pool_panics (c : Nat) :
    (ServerPool.Next ⟨[], c⟩).2 = .error .divideByZero ∧
    (ServerPool.Next ⟨[], c⟩).2 ≠ .ok none ∧
    (ServerPool.Next ⟨[], c⟩).1.curr = (c + 1) % U64 := by
  refine ⟨rfl, ?_, rfl⟩
  intro h
  cases h

/-! ## Sequential calls: the rotation through the alive targets -/

theorem FirstAlive_congr (sp : ServerPool) (s s1 idx : Nat)
    (h : s % sp.Servers.length = s1 % sp.Servers.length) (hf : sp.FirstAlive s idx) :
    sp.FirstAlive s1 idx := by
  have e : ∀ j, (s + j) % sp.Servers.length = (s1 + j) % sp.Servers.length := by
    intro j
    rw [Nat.add_mod s, Nat.add_mod s1, h]
  obtain ⟨j, hj, hidx, ha, hd⟩ := hf
  exact ⟨j, hj, by rw [← e]; exact hidx, ha, fun k hk => by rw [← e]; exact hd k hk⟩

/-- One call, when the first alive position from the incremented cursor is `idx`: `Next`
returns `idx`, keeps the targets, and leaves a cursor congruent to `idx`. -/
theorem Next_of_FirstAlive (S : List Server) (c idx : Nat) (hne : S ≠ [])
    (hU : S.length ≤ U64)
    (hf : ServerPool.FirstAlive ⟨S, c⟩ ((c + 1) % U64) idx) :
    ∃ c1, ServerPool.Next ⟨S, c⟩ = (⟨S, c1⟩, .ok (some idx)) ∧ c1 % S.length = idx ∧
      (c1 = (c + 1) % U64 ∨ c1 < S.length) := by
  obtain ⟨j, hj, hidx, ha, hd⟩ := hf
  have hpos : 0 < S.length := List.length_pos.mpr hne
  have hN := Next_some ⟨S, c⟩ hne j hj (by rw [← hidx]; exact ha) hd
  simp only at hN hidx hj
  rw [← hidx] at hN
  have hlt : idx < S.length := by rw [hidx]; exact Nat.mod_lt _ hpos
  by_cases hj0 : j = 0
  · subst hj0
    refine ⟨(c + 1) % U64, ?_, ?_, Or.inl rfl⟩
    · rw [hN]; simp
    · rw [hidx]; simp
  · refine ⟨idx, ?_, Nat.mod_eq_of_lt hlt, Or.inr hlt⟩
    rw [hN]
    simp [hj0, Nat.mod_eq_of_lt (lt_of_lt_of_le hlt hU)]

/-- The start of the call that follows a call returning `idx`. -/
theorem start_after (n c1 idx : Nat) (hc : c1 % n = idx)
    (hw : c1 + 1 < U64 ∨ n ∣ U64) : ((c1 + 1) % U64) % n = (idx + 1) % n := by
  have e : (c1 + 1) % n = (idx + 1) % n := by
    rw [Nat.add_mod c1 1 n, hc, ← hc, Nat.add_mod (c1 % n) 1 n, Nat.mod_mod]
  rcases hw with h | h
  · rw [Nat.mod_eq_of_lt h, e]
  · rw [Nat.mod_mod_of_dvd _ h, e]

theorem mem_aliveIdxs (sp : ServerPool) (i : Nat) :
    i ∈ sp.aliveIdxs ↔ i < sp.Servers.length ∧ sp.aliveAt i = true := by
  simp [ServerPool.aliveIdxs, List.mem_filter, List.mem_range]

theorem aliveIdxs_pairwise (sp : ServerPool) : sp.aliveIdxs.Pairwise (· < ·) :=
  List.Pairwise.filter _ (List.pairwise_lt_range _)

theorem aliveIdxs_lt (sp : ServerPool) (p q a b : Nat) (hp : sp.aliveIdxs[p]? = some a)
    (hq : sp.aliveIdxs[q]? = some b) (h : p < q) : a < b := by
  obtain ⟨hp1, rfl⟩ := List.getElem?_eq_some_iff.mp hp
  obtain ⟨hq1, rfl⟩ := List.getElem?_eq_some_iff.mp hq
  exact List.pairwise_iff_getElem.mp (aliveIdxs_pairwise sp) p q hp1 hq1 h

theorem aliveIdxs_le (sp : ServerPool) (p q a b : Nat) (hp : sp.aliveIdxs[p]? = some a)
    (hq : sp.aliveIdxs[q]? = some b) (h : p ≤ q) : a ≤ b := by
  rcases Nat.eq_or_lt_of_le h with h1 | h1
  · subst h1
    rw [hp] at hq
    injection hq with e
    omega
  · exact Nat.le_of_lt (aliveIdxs_lt sp p q a b hp hq h1)

/-- The alive target after the `p`-th alive one, scanning circularly, is the
`(p+1) mod k`-th alive one. -/
theorem FirstAlive_succ (sp : ServerPool) (p a b : Nat)
    (hp : sp.aliveIdxs[p]? = some a)
    (hq : sp.aliveIdxs[(p + 1) % sp.aliveIdxs.length]? = some b) :
    sp.FirstAlive (a + 1) b := by
  have hpk : p < sp.aliveIdxs.length := (List.getElem?_eq_some_iff.mp hp).1
  have ha := (mem_aliveIdxs sp a).mp (List.getElem?_mem hp)
  have hb := (mem_aliveIdxs sp b).mp (List.getElem?_mem hq)
  by_cases hlast : p + 1 < sp.aliveIdxs.length
  · rw [Nat.mod_eq_of_lt hlast] at hq
    have hab := aliveIdxs_lt sp p (p + 1) a b hp hq (Nat.lt_succ_self p)
    refine ⟨b - a - 1, by omega, ?_, hb.2, ?_⟩
    · rw [show a + 1 + (b - a - 1) = b by omega, Nat.mod_eq_of_lt hb.1]
    · intro k hk
      have hlt : a + 1 + k < sp.Servers.length := by omega
      rw [Nat.mod_eq_of_lt hlt]
      by_contra hc
      have hx : a + 1 + k ∈ sp.aliveIdxs :=
        (mem_aliveIdxs sp _).mpr ⟨hlt, by simpa using hc⟩
      obtain ⟨q, hq1⟩ := List.getElem?_of_mem hx
      rcases Nat.lt_or_ge p q with h1 | h1
      · have := aliveIdxs_le sp (p + 1) q b _ hq hq1 h1
        omega
      · have := aliveIdxs_le sp q p _ a hq1 hp h1
        omega
  · have hk1 : p + 1 = sp.aliveIdxs.length := by omega
    rw [hk1, Nat.mod_self] at hq
    have hba := aliveIdxs_le sp 0 p b a hq hp (Nat.zero_le p)
    refine ⟨sp.Servers.length - (a + 1) + b, by omega, ?_, hb.2, ?_⟩
    · rw [show a + 1 + (sp.Servers.length - (a + 1) + b) = sp.Servers.length + b by omega,
        Nat.add_mod_left, Nat.mod_eq_of_lt hb.1]
    · intro k hk
      by_contra hc
      have hpos : 0 < sp.Servers.length := by omega
      have hx : (a + 1 + k) % sp.Servers.length ∈ sp.aliveIdxs :=
        (mem_aliveIdxs sp _).mpr ⟨Nat.mod_lt _ hpos, by simpa using hc⟩
      obtain ⟨q, hq1⟩ := List.getElem?_of_mem hx
      have hqk : q < sp.aliveIdxs.length := (List.getElem?_eq_some_iff.mp hq1).1
      have h1 := aliveIdxs_le sp q p _ a hq1 hp (by omega)
      have h2 := aliveIdxs_le sp 0 q b _ hq hq1 (Nat.zero_le q)
      rcases Nat.lt_or_ge (a + 1 + k) sp.Servers.length with h3 | h3
      · rw [Nat.mod_eq_of_lt h3] at h1
        omega
      · rw [Nat.mod_eq_sub_mod h3, Nat.mod_eq_of_lt (by omega)] at h2
        omega

/-- Calls that start with the cursor congruent to the `p`-th alive index return the alive
indices that follow it, cyclically, as long as the cursor does not wrap (or the pool
length divides `2^64`). -/
theorem NextN_from_congr (S : List Server) (hne : S ≠ []) :
    ∀ m c p a, (ServerPool.aliveIdxs ⟨S, 0⟩)[p]? = some a → c % S.length = a →
      ((c + m < U64 ∧ S.length + m ≤ U64) ∨ S.length ∣ U64) →
      (ServerPool.NextN m ⟨S, c⟩).1 = (List.range m).map (fun t =>
        (ServerPool.aliveIdxs ⟨S, 0⟩)[(p + 1 + t) % (ServerPool.aliveIdxs ⟨S, 0⟩).length]?) := by
  intro m
  induction m with
  | zero => intro c p a _ _ _; rfl
  | succ m ih =>
    intro c p a hp hc hw
    have hpk : p < (ServerPool.aliveIdxs ⟨S, 0⟩).length := (List.getElem?_eq_some_iff.mp hp).1
    have hU : S.length ≤ U64 := by
      rcases hw with h | h
      · omega
      · exact Nat.le_of_dvd (by decide) h
    have hlt : (p + 1) % (ServerPool.aliveIdxs ⟨S, 0⟩).length
        < (ServerPool.aliveIdxs ⟨S, 0⟩).length := Nat.mod_lt _ (by omega)
    obtain ⟨b, hq⟩ : ∃ b, (ServerPool.aliveIdxs ⟨S, 0⟩)[(p + 1)
        % (ServerPool.aliveIdxs ⟨S, 0⟩).length]? = some b :=
      ⟨_, List.getElem?_eq_getElem hlt⟩
    have hst := start_after S.length c a hc (by rcases hw with h | h; exact Or.inl (by omega); exact Or.inr h)
    have hf : ServerPool.FirstAlive ⟨S, c⟩ ((c + 1) % U64) _ :=
      FirstAlive_congr ⟨S, c⟩ (a + 1) ((c + 1) % U64) _ hst.symm
        (FirstAlive_succ ⟨S, 0⟩ p a _ hp hq)
    obtain ⟨c1, hN, hc1, hb⟩ := Next_of_FirstAlive S c _ hne hU hf
    have hw1 : (c1 + m < U64 ∧ S.length + m ≤ U64) ∨ S.length ∣ U64 := by
      rcases hw with h | h
      · left
        rcases hb with e | e
        · rw [Nat.mod_eq_of_lt (by omega)] at e
          omega
        · omega
      · exact Or.inr h
    have ih1 := ih c1 _ _ hq hc1 hw1
    simp only [ServerPool.NextN, hN, ih1, List.range_succ_eq_map, List.map_cons, List.map_map]
    rw [hq]
    simp only [Nat.add_zero, List.cons.injEq, true_and]
    apply List.map_congr_left
    intro t _
    simp only [Function.comp, Nat.succ_eq_add_one]
    rw [show (p + 1) % (ServerPool.aliveIdxs ⟨S, 0⟩).length + 1 + t
        = (p + 1) % (ServerPool.aliveIdxs ⟨S, 0⟩).length + (1 + t) by omega,
      Nat.mod_add_mod, show p + 1 + (1 + t) = p + 1 + (t + 1) by omega]

/-- The results of `m` sequential calls on a pool with an alive target: a walk through
the alive indices, one step per call, starting at some position `p`. -/
theorem NextN_walk (S : List Server) (c m : Nat)
    (hk : ServerPool.aliveIdxs ⟨S, 0⟩ ≠ [])
    (hw : (c + m < U64 ∧ S.length + m ≤ U64) ∨ S.length ∣ U64) :
    ∃ p, p < (ServerPool.aliveIdxs ⟨S, 0⟩).length ∧
      (ServerPool.NextN m ⟨S, c⟩).1 = (List.range m).map (fun t =>
        (ServerPool.aliveIdxs ⟨S, 0⟩)[(p + t) % (ServerPool.aliveIdxs ⟨S, 0⟩).length]?) := by
  have hkpos : 0 < (ServerPool.aliveIdxs ⟨S, 0⟩).length := List.length_pos.mpr hk
  cases m with
  | zero => exact ⟨0, hkpos, rfl⟩
  | succ m =>
    obtain ⟨i0, hi0⟩ := List.exists_mem_of_ne_nil _ hk
    have hi := (mem_aliveIdxs ⟨S, 0⟩ i0).mp hi0
    have hne : S ≠ [] := by
      intro h
      subst h
      simp at hi
    have hU : S.length ≤ U64 := by
      rcases hw with h | h
      · omega
      · exact Nat.le_of_dvd (by decide) h
    obtain ⟨j, hj, ha, hd⟩ := exists_first_alive ⟨S, c⟩ ((c + 1) % U64) ⟨i0, hi.1, hi.2⟩
    have hf : ServerPool.FirstAlive ⟨S, c⟩ ((c + 1) % U64) (((c + 1) % U64 + j) % S.length) :=
      ⟨j, hj, rfl, ha, hd⟩
    obtain ⟨c1, hN, hc1, hb⟩ := Next_of_FirstAlive S c _ hne hU hf
    have hmem : ((c + 1) % U64 + j) % S.length ∈ ServerPool.aliveIdxs ⟨S, 0⟩ :=
      (mem_aliveIdxs ⟨S, 0⟩ _).mpr ⟨Nat.mod_lt _ (List.length_pos.mpr hne), ha⟩
    obtain ⟨p, hp⟩ := List.getElem?_of_mem hmem
    have hpk : p < (ServerPool.aliveIdxs ⟨S, 0⟩).length := (List.getElem?_eq_some_iff.mp hp).1
    have hw1 : (c1 + m < U64 ∧ S.length + m ≤ U64) ∨ S.length ∣ U64 := by
      rcases hw with h | h
      · left
        rcases hb with e | e
        · rw [Nat.mod_eq_of_lt (by omega)] at e
          omega
        · omega
      · exact Or.inr h
    have hrest := NextN_from_congr S hne m c1 p _ hp hc1 hw1
    refine ⟨p, hpk, ?_⟩
    simp only [ServerPool.NextN, hN, hrest, List.range_succ_eq_map, List.map_cons, List.map_map]
    rw [show p + 0 = p from rfl, Nat.mod_eq_of_lt hpk, hp]
    simp only [List.cons.injEq, true_and]
    apply List.map_congr_left
    intro t _
    simp only [Function.comp, Nat.succ_eq_add_one]
    rw [show p + 1 + t = p + (t + 1) by omega]

/-- A window of `k` consecutive steps of a walk through a list of length `k` is a rotation
of the list. -/
theorem walk_window {α : Type} (A : List α) (p t m : Nat) (hk : A ≠ [])
    (ht : t + A.length ≤ m) :
    (((List.range m).map (fun u => A[(p + u) % A.length]?)).drop t).take A.length
      = (A.rotate ((p + t) % A.length)).map some := by
  have hkpos : 0 < A.length := List.length_pos.mpr hk
  apply List.ext_getElem
  · simp
    omega
  · intro u h1 h2
    have hu : u < A.length := by simpa using h2
    simp only [List.getElem_take, List.getElem_drop, List.getElem_map, List.getElem_range,
      List.getElem_rotate]
    rw [List.getElem?_eq_getElem (Nat.mod_lt _ hkpos)]
    congr 2
    rw [Nat.add_mod_mod]
    congr 1
    omega

/-- C3 (amended): for a pool with `k >= 1` alive targets and fixed liveness flags, in `m`
sequential `Next` calls during which the 64-bit cursor does not wrap around (or on a pool
whose length divides `2^64`), every call returns a target, and any `k` consecutive calls
return the alive targets each exactly once, in pool order taken cyclically (a rotation of
the list of alive indices). In particular, for every cursor value, 10 sequential calls on
a pool of two alive targets return both targets and never nil. -/
theorem C3_rotation_without_wrap :
    (∀ (sp : ServerPool) (m t : Nat), sp.aliveIdxs ≠ [] →
      ((sp.curr + m < U64 ∧ sp.Servers.length + m ≤ U64) ∨ sp.Servers.length ∣ U64) →
      (sp.NextN m).1.length = m ∧ none ∉ (sp.NextN m).1 ∧
      (t + sp.aliveIdxs.length ≤ m →
        ∃ r, ((sp.NextN m).1.drop t).take sp.aliveIdxs.length
          = (sp.aliveIdxs.rotate r).map some)) ∧
    (∀ (a b : Server) (c : Nat), a.Alive = true → b.Alive = true →
      (ServerPool.NextN 10 ⟨[a, b], c⟩).1.length = 10 ∧
      some 0 ∈ (ServerPool.NextN 10 ⟨[a, b], c⟩).1 ∧
      some 1 ∈ (ServerPool.NextN 10 ⟨[a, b], c⟩).1 ∧
      none ∉ (ServerPool.NextN 10 ⟨[a, b], c⟩).1) := by
  have gen : ∀ (sp : ServerPool) (m t : Nat), sp.aliveIdxs ≠ [] →
      ((sp.curr + m < U64 ∧ sp.Servers.length + m ≤ U64) ∨ sp.Servers.length ∣ U64) →
      (sp.NextN m).1.length = m ∧ none ∉ (sp.NextN m).1 ∧
      (t + sp.aliveIdxs.length ≤ m →
        ∃ r, ((sp.NextN m).1.drop t).take sp.aliveIdxs.length
          = (sp.aliveIdxs.rotate r).map some) := by
    intro sp m t hk hw
    obtain ⟨S, c⟩ := sp
    obtain ⟨p, hp, hres⟩ := NextN_walk S c m hk hw
    have hA : ServerPool.aliveIdxs ⟨S, c⟩ = ServerPool.aliveIdxs ⟨S, 0⟩ := rfl
    have hkpos : 0 < (ServerPool.aliveIdxs ⟨S, 0⟩).length := List.length_pos.mpr hk
    rw [hA, hres]
    refine ⟨by simp, ?_, ?_⟩
    · intro hmem
      obtain ⟨u, _, hu⟩ := List.mem_map.mp hmem
      rw [List.getElem?_eq_getElem (Nat.mod_lt _ hkpos)] at hu
      exact Option.noConfusion hu
    · intro ht
      exact ⟨_, walk_window _ p t m hk ht⟩
  refine ⟨gen, ?_⟩
  intro a b c ha hb
  have hA : ServerPool.aliveIdxs ⟨[a, b], c⟩ = [0, 1] := by
    simp [ServerPool.aliveIdxs, ServerPool.aliveAt, Server.IsAlive, List.range_succ, ha, hb,
      List.filter]
  have h2 : (ServerPool.mk [a, b] c).Servers.length ∣ U64 := by
    show 2 ∣ U64
    decide
  obtain ⟨hlen, hnone, hwin⟩ := gen ⟨[a, b], c⟩ 10 0 (by rw [hA]; simp) (Or.inr h2)
  obtain ⟨r, hr⟩ := hwin (by rw [hA]; decide)
  rw [hA] at hr
  have hsub : ∀ x, x ∈ ([0, 1].rotate r).map some → x ∈ (ServerPool.NextN 10 ⟨[a, b], c⟩).1 := by
    intro x hx
    rw [← hr] at hx
    exact List.mem_of_mem_drop (List.mem_of_mem_take hx)
  refine ⟨hlen, hsub _ ?_, hsub _ ?_, hnone⟩
  · exact List.mem_map.mpr ⟨0, List.mem_rotate.mpr (by simp), rfl⟩
  · exact List.mem_map.mpr ⟨1, List.mem_rotate.mpr (by simp), rfl⟩

/-- Witness of C3 (amended): five targets with three alive ones, 7 calls from cursor 7,
the window of calls 3 to 5. -/
theorem C3_rotation_without_wrap_witness :
    poolEvenAlive.aliveIdxs ≠ [] ∧
    (poolEvenAlive.curr + 7 < U64 ∧ poolEvenAlive.Servers.length + 7 ≤ U64) ∧
    2 + poolEvenAlive.aliveIdxs.length ≤ 7 ∧
    ∃ r, ((poolEvenAlive.NextN 7).1.drop 2).take poolEvenAlive.aliveIdxs.length
      = (poolEvenAlive.aliveIdxs.rotate r).map some :=
  ⟨by decide, by decide, by decide,
    (C3_rotation_without_wrap.1 poolEvenAlive 7 2 (by decide) (Or.inl (by decide))).2.2
      (by decide)⟩

/-- C3 as stated fails when the cursor wraps: on three alive targets with the cursor at
`2^64 - 2`, three consecutive calls return target 0 twice and target 2 not at all. -/
theorem C3_counterexample_wrap :
    poolNearWrap.aliveIdxs = [0, 1, 2] ∧
    (poolNearWrap.NextN 3).1 = [some 0, some 0, some 1] ∧
    ∀ r, (poolNearWrap.NextN 3).1 ≠ (poolNearWrap.aliveIdxs.rotate r).map some := by
  have h1 : poolNearWrap.aliveIdxs = [0, 1, 2] := by decide
  have h2 : (poolNearWrap.NextN 3).1 = [some 0, some 0, some 1] := by decide
  refine ⟨h1, h2, ?_⟩
  intro r h
  have hm : some 2 ∈ (poolNearWrap.aliveIdxs.rotate r).map some :=
    List.mem_map.mpr ⟨2, List.mem_rotate.mpr (by rw [h1]; simp), rfl⟩
  rw [← h, h2] at hm
  simp at hm

/-! ## The request state machine -/

theorem run_done (up : Upstream) (fuel : Nat) (r : Outcome) (m : Machine) :
    run up fuel (.done r) m = (.done r, m) := by
  cases fuel <;> rfl

theorem run_ServeHTTP (up : Upstream) (fuel : Nat) (req : Request) (m : Machine) :
    run up (fuel + 1) (.ServeHTTP req) m
      = run up fuel (ServerPool.ServeHTTP req m).1 (ServerPool.ServeHTTP req m).2 := rfl

theorem run_ProxyServeHTTP (up : Upstream) (fuel idx : Nat) (req : Request) (m : Machine) :
    run up (fuel + 1) (.ProxyServeHTTP idx req) m
      = run up fuel (ReverseProxy.ServeHTTP up idx req m).1
          (ReverseProxy.ServeHTTP up idx req m).2 := rfl

theorem run_ErrorHandler (up : Upstream) (fuel idx : Nat) (req : Request) (m : Machine) :
    run up (fuel + 1) (.ErrorHandler idx req) m
      = run up fuel (Server.ErrorHandler idx req m).1 (Server.ErrorHandler idx req m).2 := rfl

theorem run_FallbackHandler (up : Upstream) (fuel idx : Nat) (req : Request) (m : Machine) :
    run up (fuel + 1) (.FallbackHandler idx req) m
      = run up fuel (Server.FallbackHandler idx req m).1
          (Server.FallbackHandler idx req m).2 := rfl

theorem wrapInt_eq (x : Int) (hlo : -(2 ^ 63) ≤ x) (hhi : x < 2 ^ 63) : wrapInt x = x := by
  unfold wrapInt
  rw [Int.emod_eq_of_lt (by omega) (by omega)]
  omega

theorem Next_single_alive (s : Server) (c : Nat) (h : s.Alive = true) :
    ServerPool.Next ⟨[s], c⟩ = (⟨[s], (c + 1) % U64⟩, .ok (some 0)) := by
  have := Next_some ⟨[s], c⟩ (by simp) 0 (by simp)
    (by simp [ServerPool.aliveAt, Server.IsAlive, h, Nat.mod_one]) (by intro k hk; omega)
  simpa [Nat.mod_one] using this

theorem Next_single_dead (s : Server) (c : Nat) (h : s.Alive = false) :
    ServerPool.Next ⟨[s], c⟩ = (⟨[s], (c + 1) % U64⟩, .ok none) := by
  apply Next_none ⟨[s], c⟩ (by simp)
  intro i hi
  have : i = 0 := by simpa using hi
  subst this
  simp [ServerPool.aliveAt, Server.IsAlive, h]

/-- C5: `ServeHTTP` asks `Next` once. When `Next` returns the target `peer`, the request
is handed, unchanged, to the proxying mechanism of `peer` (the next event is the forward
to `peer`) and to no other target; when `Next` returns nil the handling ends with a 503
response and no forward: the trace gains only the dispatch and the 503, and the number
of forwards is unchanged. -/
theorem C5_ServeHTTP_forwards_selected_or_503 (up : Upstream) (req : Request) (m : Machine)
    (fuel : Nat) :
    (∀ sp peer, m.pool.Next = (sp, .ok (some peer)) →
      ServerPool.ServeHTTP req m
        = (.ProxyServeHTTP peer req, ⟨sp, m.sent, m.trace ++ [.dispatch req]⟩) ∧
      run up (fuel + 1) (.ServeHTTP req) m
        = run up fuel (.ProxyServeHTTP peer req) ⟨sp, m.sent, m.trace ++ [.dispatch req]⟩ ∧
      (step up (.ProxyServeHTTP peer req) ⟨sp, m.sent, m.trace ++ [.dispatch req]⟩).2.trace
        = m.trace ++ [.dispatch req, .forward peer req]
            ++ (if up peer m.sent then [] else [.relayed peer])) ∧
    (∀ sp, m.pool.Next = (sp, .ok none) →
      run up (fuel + 1) (.ServeHTTP req) m
        = (.done .serviceUnavailable,
            ⟨sp, m.sent, m.trace ++ [.dispatch req, .respond503]⟩)) := by
  constructor
  · intro sp peer h
    have e : ServerPool.ServeHTTP req m
        = (.ProxyServeHTTP peer req, ⟨sp, m.sent, m.trace ++ [.dispatch req]⟩) := by
      simp [ServerPool.ServeHTTP, Machine.emit, h]
    refine ⟨e, ?_, ?_⟩
    · rw [run_ServeHTTP, e]
    · simp only [step, ReverseProxy.ServeHTTP, Machine.emit]
      by_cases hu : up peer m.sent = true
      · simp [hu]
      · simp [hu]
  · intro sp h
    have e : ServerPool.ServeHTTP req m
        = (.done .serviceUnavailable, ⟨sp, m.sent, m.trace ++ [.dispatch req, .respond503]⟩) := by
      simp [ServerPool.ServeHTTP, Machine.emit, h]
    rw [run_ServeHTTP, e, run_done]

/-- Witness of C5: on the pool whose second target is dead, `Next` selects target 0 and
the request is forwarded to target 0. -/
theorem C5_ServeHTTP_forwards_selected_or_503_witness :
    poolOneDead.Next = (⟨poolOneDead.Servers, 0⟩, .ok (some 0)) ∧
    run upAlwaysFail 2 (.ServeHTTP freshRequest) ⟨poolOneDead, 0, []⟩
      = run upAlwaysFail 1 (.ProxyServeHTTP 0 freshRequest)
          ⟨⟨poolOneDead.Servers, 0⟩, 0, [.dispatch freshRequest]⟩ :=
  ⟨by decide, ((C5_ServeHTTP_forwards_selected_or_503 upAlwaysFail freshRequest
    ⟨poolOneDead, 0, []⟩ 1).1 ⟨poolOneDead.Servers, 0⟩ 0 (by decide)).2.1⟩

/-- C6: a pool whose sole member always fails at the transport level, a request with no
counter in its context. The request is forwarded once, then re-forwarded by
`ErrorHandler` exactly `MaxRetryCount = 3` times (retry counts 1, 2, 3, each after the
backoff); then the target is set dead, once; then `FallbackHandler` re-dispatches the
request to the pool, whose `Next` finds no alive target; the response is 503. This holds
when the request enters through the pool (target alive) and when it is handed to the
proxy of the target directly. -/
theorem C6_sole_failing_target_retries_then_503 (s : Server) (c : Nat) (up : Upstream)
    (hup : ∀ k, up 0 k = true) (fuel : Nat) (hfuel : 11 ≤ fuel) :
    (s.Alive = true →
      run up fuel (.ServeHTTP ⟨none, none⟩) ⟨⟨[s], c⟩, 0, []⟩
        = (.done .serviceUnavailable,
            ⟨⟨[s.SetAlive false], ((c + 1) % U64 + 1) % U64⟩, 4,
              [.dispatch ⟨none, none⟩,
               .forward 0 ⟨none, none⟩, .transportError 0 ⟨none, none⟩, .sleep,
               .forward 0 ⟨some 1, none⟩, .transportError 0 ⟨some 1, none⟩, .sleep,
               .forward 0 ⟨some 2, none⟩, .transportError 0 ⟨some 2, none⟩, .sleep,
               .forward 0 ⟨some 3, none⟩, .transportError 0 ⟨some 3, none⟩,
               .setAlive 0 false,
               .fallback 0 ⟨some 3, some 1⟩,
               .dispatch ⟨some 3, some 2⟩,
               .respond503]⟩)) ∧
    run up fuel (.ProxyServeHTTP 0 ⟨none, none⟩) ⟨⟨[s], c⟩, 0, []⟩
      = (.done .serviceUnavailable,
          ⟨⟨[s.SetAlive false], (c + 1) % U64⟩, 4,
            [.forward 0 ⟨none, none⟩, .transportError 0 ⟨none, none⟩, .sleep,
             .forward 0 ⟨some 1, none⟩, .transportError 0 ⟨some 1, none⟩, .sleep,
             .forward 0 ⟨some 2, none⟩, .transportError 0 ⟨some 2, none⟩, .sleep,
             .forward 0 ⟨some 3, none⟩, .transportError 0 ⟨some 3, none⟩,
             .setAlive 0 false,
             .fallback 0 ⟨some 3, some 1⟩,
             .dispatch ⟨some 3, some 2⟩,
             .respond503]⟩) := by
  obtain ⟨d, rfl⟩ := Nat.exists_eq_add_of_le hfuel
  have w1 : wrapInt 1 = 1 := by decide
  have w2 : wrapInt 2 = 2 := by decide
  have w3 : wrapInt 3 = 3 := by decide
  have hdead : (s.SetAlive false).Alive = false := rfl
  have direct : ∀ (c0 : Nat) (pre : List Event) (e : Nat),
      run up (e + 10) (.ProxyServeHTTP 0 ⟨none, none⟩) ⟨⟨[s], c0⟩, 0, pre⟩
        = (.done .serviceUnavailable,
          ⟨⟨[s.SetAlive false], (c0 + 1) % U64⟩, 4,
            pre ++ [.forward 0 ⟨none, none⟩, .transportError 0 ⟨none, none⟩, .sleep,
             .forward 0 ⟨some 1, none⟩, .transportError 0 ⟨some 1, none⟩, .sleep,
             .forward 0 ⟨some 2, none⟩, .transportError 0 ⟨some 2, none⟩, .sleep,
             .forward 0 ⟨some 3, none⟩, .transportError 0 ⟨some 3, none⟩,
             .setAlive 0 false,
             .fallback 0 ⟨some 3, some 1⟩,
             .dispatch ⟨some 3, some 2⟩,
             .respond503]⟩) := by
    intro c0 pre e
    simp [run_ProxyServeHTTP, run_ErrorHandler, run_FallbackHandler, run_ServeHTTP, run_done,
      ReverseProxy.ServeHTTP, Server.ErrorHandler, Server.FallbackHandler,
      ServerPool.ServeHTTP, Machine.emit, hup, Server.getRetryCount, Server.getAttemptCount,
      MaxRetryCount, MaxAttemptCount, w1, w2, w3, ServerPool.setAliveAt,
      Next_single_dead _ _ hdead]
  constructor
  · intro ha
    rw [show 11 + d = (d + 10) + 1 by omega, run_ServeHTTP]
    have e : ServerPool.ServeHTTP ⟨none, none⟩ ⟨⟨[s], c⟩, 0, []⟩
        = (.ProxyServeHTTP 0 ⟨none, none⟩,
            ⟨⟨[s], (c + 1) % U64⟩, 0, [.dispatch ⟨none, none⟩]⟩) := by
      simp [ServerPool.ServeHTTP, Machine.emit, Next_single_alive s c ha]
    rw [e, direct]
    simp
  · rw [show 11 + d = (d + 1) + 10 by omega, direct]
    simp

/-- Witness of C6: the pool of the retry test, entered at the proxy of its sole target. -/
theorem C6_sole_failing_target_retries_then_503_witness :
    (∀ k, upAlwaysFail 0 k = true) ∧ 11 ≤ 11 ∧
    (run upAlwaysFail 11 (.ProxyServeHTTP 0 ⟨none, none⟩) ⟨⟨[badServer], 0⟩, 0, []⟩).1
      = .done .serviceUnavailable ∧
    (run upAlwaysFail 11 (.ProxyServeHTTP 0 ⟨none, none⟩) ⟨⟨[badServer], 0⟩, 0, []⟩).2.pool
      = ⟨[badServer.SetAlive false], 1⟩ :=
  ⟨fun _ => rfl, Nat.le_refl 11,
    congrArg Prod.fst (C6_sole_failing_target_retries_then_503 badServer 0 upAlwaysFail
      (fun _ => rfl) 11 (Nat.le_refl 11)).2,
    by decide⟩

/-- C7, what the code does: when `ErrorHandler` runs with retry count `>= MaxRetryCount`
and attempt count `a`, and the fallback re-dispatches to the pool (`a + 1 <
MaxAttemptCount`), the attempt count is incremented twice, once by `ErrorHandler` and once
more by `FallbackHandler`: the request handed to `ServerPool.ServeHTTP` carries `a + 2`,
not `a + 1`. -/
theorem C7_attempt_count_incremented_twice (idx : Nat) (req : Request) (m : Machine)
    (hr : MaxRetryCount ≤ Server.getRetryCount req)
    (hlo : -(2 ^ 63) ≤ Server.getAttemptCount req)
    (ha : Server.getAttemptCount req + 1 < MaxAttemptCount) :
    (Server.ErrorHandler idx req m).1
      = .FallbackHandler idx { req with attempt := some (Server.getAttemptCount req + 1) } ∧
    (Server.FallbackHandler idx
        { req with attempt := some (Server.getAttemptCount req + 1) }
        (Server.ErrorHandler idx req m).2).1
      = .ServeHTTP { req with attempt := some (Server.getAttemptCount req + 2) } ∧
    Server.getAttemptCount { req with attempt := some (Server.getAttemptCount req + 2) }
      ≠ Server.getAttemptCount req + 1 := by
  have hmax : MaxAttemptCount = 3 := rfl
  have hnr : ¬ Server.getRetryCount req < MaxRetryCount := not_lt.mpr hr
  have w1 : wrapInt (Server.getAttemptCount req + 1) = Server.getAttemptCount req + 1 :=
    wrapInt_eq _ (by omega) (by omega)
  have w2 : wrapInt (Server.getAttemptCount req + 1 + 1) = Server.getAttemptCount req + 2 := by
    rw [wrapInt_eq _ (by omega) (by omega)]
    omega
  have hna : ¬ Server.getAttemptCount req + 1 ≥ MaxAttemptCount := not_le.mpr ha
  refine ⟨?_, ?_, ?_⟩
  · simp only [Server.ErrorHandler, hnr, if_false, w1]
  · simp only [Server.FallbackHandler, Server.getAttemptCount, hna, if_false, w2]
    simp only [Server.getAttemptCount] at hna w2
    simp only [hna, if_false, w2]
  · simp only [Server.getAttemptCount]
    omega

/-- Witness of C7: retries exhausted (`retry = 3`), no attempt counter yet (`a = 0`): the
pool receives the request with attempt count 2. -/
theorem C7_attempt_count_incremented_twice_witness :
    MaxRetryCount ≤ Server.getRetryCount ⟨some 3, none⟩ ∧
    (Server.FallbackHandler 0 ⟨some 3, some 1⟩
      (Server.ErrorHandler 0 ⟨some 3, none⟩ ⟨poolBothAlive, 4, []⟩).2).1
      = .ServeHTTP ⟨some 3, some 2⟩ :=
  ⟨by decide, (C7_attempt_count_incremented_twice 0 ⟨some 3, none⟩ ⟨poolBothAlive, 4, []⟩
    (by decide) (by decide) (by decide)).2.1⟩

/-- C8: `FallbackHandler` reads the attempt count from the context (0 when absent). It
answers 503 and hands the request to nobody exactly when that count is
`>= MaxAttemptCount = 3`; for every smaller count it re-submits the request to the pool's
`ServeHTTP` (with the count incremented in the context). In both cases it leaves the pool
as it is: no liveness flag and no cursor changes, and nothing is forwarded, by
`FallbackHandler` itself. -/
theorem C8_FallbackHandler_503_iff_attempts_exhausted (idx : Nat) (req : Request)
    (m : Machine) :
    MaxAttemptCount = 3 ∧
    (req.attempt = none → Server.getAttemptCount req = 0) ∧
    ((Server.FallbackHandler idx req m).1 = .done .serviceUnavailable
      ↔ MaxAttemptCount ≤ Server.getAttemptCount req) ∧
    (MaxAttemptCount ≤ Server.getAttemptCount req →
      Server.FallbackHandler idx req m
        = (.done .serviceUnavailable,
            { m with trace := m.trace ++ [.fallback idx req, .respond503] })) ∧
    (Server.getAttemptCount req < MaxAttemptCount →
      Server.FallbackHandler idx req m
        = (.ServeHTTP { req with attempt := some (wrapInt (Server.getAttemptCount req + 1)) },
            { m with trace := m.trace ++ [.fallback idx req] })) ∧
    (Server.FallbackHandler idx req m).2.pool = m.pool ∧
    (Server.FallbackHandler idx req m).2.sent = m.sent := by
  refine ⟨rfl, ?_, ?_, ?_, ?_, ?_, ?_⟩
  · intro h
    simp [Server.getAttemptCount, h]
  · by_cases h : MaxAttemptCount ≤ Server.getAttemptCount req
    · simp [Server.FallbackHandler, h]
    · simp [Server.FallbackHandler, h]
  · intro h
    simp [Server.FallbackHandler, h, Machine.emit]
  · intro h
    have h1 : ¬ MaxAttemptCount ≤ Server.getAttemptCount req := not_le.mpr h
    simp [Server.FallbackHandler, h1, Machine.emit]
  · by_cases h : MaxAttemptCount ≤ Server.getAttemptCount req
    · simp [Server.FallbackHandler, h, Machine.emit]
    · simp [Server.FallbackHandler, h, Machine.emit]
  · by_cases h : MaxAttemptCount ≤ Server.getAttemptCount req
    · simp [Server.FallbackHandler, h, Machine.emit]
    · simp [Server.FallbackHandler, h, Machine.emit]

/-- Witness of C8: attempt counts 3 (terminal 503) and 2 (re-submitted with count 3). -/
theorem C8_FallbackHandler_503_iff_attempts_exhausted_witness :
    MaxAttemptCount ≤ Server.getAttemptCount ⟨some 3, some 3⟩ ∧
    Server.FallbackHandler 1 ⟨some 3, some 3⟩ ⟨poolBothAlive, 5, []⟩
      = (.done .serviceUnavailable,
          ⟨poolBothAlive, 5, [.fallback 1 ⟨some 3, some 3⟩, .respond503]⟩) ∧
    Server.getAttemptCount ⟨some 3, some 2⟩ < MaxAttemptCount ∧
    Server.FallbackHandler 1 ⟨some 3, some 2⟩ ⟨poolBothAlive, 5, []⟩
      = (.ServeHTTP ⟨some 3, some (wrapInt (Server.getAttemptCount ⟨some 3, some 2⟩ + 1))⟩,
          ⟨poolBothAlive, 5, [.fallback 1 ⟨some 3, some 2⟩]⟩) :=
  ⟨by decide,
    (C8_FallbackHandler_503_iff_attempts_exhausted 1 ⟨some 3, some 3⟩
      ⟨poolBothAlive, 5, []⟩).2.2.2.1 (by decide),
    by decide,
    (C8_FallbackHandler_503_iff_attempts_exhausted 1 ⟨some 3, some 2⟩
      ⟨poolBothAlive, 5, []⟩).2.2.2.2.1 (by decide)⟩

/-- C9: when `ErrorHandler` runs with a retry count `r < MaxRetryCount`, where `r` is the
value stored under the retry key of the request context, or 0 when the context has no
retry counter, the next call is the proxying mechanism of the same target with a request
whose context carries retry count `r + 1` and the attempt entry it had; the pool
(liveness flags and cursor) is unchanged, nothing but the backoff sleep happens, and
neither the fallback nor the pool is called. -/
theorem C9_ErrorHandler_retries_same_target (idx : Nat) (req : Request) (m : Machine)
    (r : Int) (hctx : req.retry = some r ∨ (req.retry = none ∧ r = 0))
    (hlo : -(2 ^ 63) ≤ r) (hr : r < MaxRetryCount) :
    MaxRetryCount = 3 ∧
    Server.getRetryCount req = r ∧
    (req.retry = none → Server.getRetryCount req = 0) ∧
    Server.ErrorHandler idx req m
      = (.ProxyServeHTTP idx ⟨some (r + 1), req.attempt⟩,
          { m with trace := m.trace ++ [.transportError idx req, .sleep] }) ∧
    Server.getRetryCount ⟨some (r + 1), req.attempt⟩ = r + 1 ∧
    Server.getAttemptCount ⟨some (r + 1), req.attempt⟩ = Server.getAttemptCount req ∧
    (Server.ErrorHandler idx req m).2.pool = m.pool ∧
    (Server.ErrorHandler idx req m).2.sent = m.sent ∧
    (∀ i q, (Server.ErrorHandler idx req m).1 ≠ .FallbackHandler i q) ∧
    (∀ q, (Server.ErrorHandler idx req m).1 ≠ .ServeHTTP q) := by
  have hmax : MaxRetryCount = 3 := rfl
  have hg : Server.getRetryCount req = r := by
    rcases hctx with h | ⟨h, h0⟩
    · simp [Server.getRetryCount, h]
    · simp [Server.getRetryCount, h, h0]
  have w : wrapInt (r + 1) = r + 1 := wrapInt_eq _ (by omega) (by omega)
  have e : Server.ErrorHandler idx req m
      = (.ProxyServeHTTP idx ⟨some (r + 1), req.attempt⟩,
          { m with trace := m.trace ++ [.transportError idx req, .sleep] }) := by
    simp [Server.ErrorHandler, hg, hr, w, Machine.emit]
  refine ⟨rfl, hg, ?_, e, rfl, rfl, ?_, ?_, ?_, ?_⟩
  · intro h
    simp [Server.getRetryCount, h]
  · rw [e]
  · rw [e]
  · intro i q
    rw [e]
    simp
  · intro q
    rw [e]
    simp

/-- Witness of C9: a third transport error, with retry count 2 and attempt count 1 stored
in the context, and the first transport error of a request without counters. -/
theorem C9_ErrorHandler_retries_same_target_witness :
    (2 : Int) < MaxRetryCount ∧
    Server.getRetryCount ⟨some 2, some 1⟩ = 2 ∧
    Server.ErrorHandler 1 ⟨some 2, some 1⟩ ⟨poolBothAlive, 3, []⟩
      = (.ProxyServeHTTP 1 ⟨some 3, some 1⟩,
          ⟨poolBothAlive, 3, [.transportError 1 ⟨some 2, some 1⟩, .sleep]⟩) ∧
    Server.getRetryCount freshRequest = 0 ∧
    Server.ErrorHandler 1 freshRequest ⟨poolBothAlive, 1, []⟩
      = (.ProxyServeHTTP 1 ⟨some 1, none⟩,
          ⟨poolBothAlive, 1, [.transportError 1 freshRequest, .sleep]⟩) :=
  ⟨by decide,
    (C9_ErrorHandler_retries_same_target 1 ⟨some 2, some 1⟩ ⟨poolBothAlive, 3, []⟩ 2
      (Or.inl rfl) (by decide) (by decide)).2.1,
    (C9_ErrorHandler_retries_same_target 1 ⟨some 2, some 1⟩ ⟨poolBothAlive, 3, []⟩ 2
      (Or.inl rfl) (by decide) (by decide)).2.2.2.1,
    (C9_ErrorHandler_retries_same_target 1 freshRequest ⟨poolBothAlive, 1, []⟩ 0
      (Or.inr ⟨rfl, rfl⟩) (by decide) (by decide)).2.1,
    (C9_ErrorHandler_retries_same_target 1 freshRequest ⟨poolBothAlive, 1, []⟩ 0
      (Or.inr ⟨rfl, rfl⟩) (by decide) (by decide)).2.2.2.1⟩

/-! ## Health record -/

/-- C10: after a poll that receives a 200 response whose body decodes to the payload `p`,
the `Alive` flag is `p.Status` (also when that is false), `LastInstanceStatus` is `p`,
the last-poll timestamp is the timestamp of this poll, and `LastError` and
`LastErrorUTCTimestamp` are what they were before the poll; the identity fields are
untouched. -/
theorem C10_successful_poll (inst : InstanceInfo) (timestamp : Nat) (p : InstanceStatus) :
    (inst.runHealthCheck timestamp (.response 200 (.ok p))).Alive = p.Status ∧
    (inst.runHealthCheck timestamp (.response 200 (.ok p))).LastInstanceStatus = some p ∧
    (inst.runHealthCheck timestamp (.response 200 (.ok p))).LastUTCTimestsamp
      = some timestamp ∧
    (inst.runHealthCheck timestamp (.response 200 (.ok p))).LastError = inst.LastError ∧
    (inst.runHealthCheck timestamp (.response 200 (.ok p))).LastErrorUTCTimestamp
      = inst.LastErrorUTCTimestamp ∧
    inst.runHealthCheck timestamp (.response 200 (.ok p))
      = { inst with Alive := p.Status, LastUTCTimestsamp := some timestamp,
                    LastInstanceStatus := some p } := by
  simp [InstanceInfo.runHealthCheck, InstanceInfo.updateStatus]

theorem runHealthCheck_failed (inst : InstanceInfo) (timestamp : Nat) (poll : PollResult)
    (h : poll.payload = none) :
    (inst.runHealthCheck timestamp poll).Alive = false ∧
    (inst.runHealthCheck timestamp poll).LastInstanceStatus = inst.LastInstanceStatus := by
  cases poll with
  | requestError e => simp [InstanceInfo.runHealthCheck, InstanceInfo.updateStatus]
  | transportError e => simp [InstanceInfo.runHealthCheck, InstanceInfo.updateStatus]
  | response sc body =>
    by_cases hs : sc = 200
    · cases body with
      | error e => simp [InstanceInfo.runHealthCheck, InstanceInfo.updateStatus, hs]
      | ok p => simp [PollResult.payload, hs] at h
    · simp [InstanceInfo.runHealthCheck, InstanceInfo.updateStatus, hs]

theorem runPolls_append (inst : InstanceInfo) (xs ys : List (Nat × PollResult)) :
    inst.runPolls (xs ++ ys) = (inst.runPolls xs).runPolls ys := by
  induction xs generalizing inst with
  | nil => rfl
  | cons x xs ih =>
    obtain ⟨t, poll⟩ := x
    simp only [List.cons_append, InstanceInfo.runPolls]
    exact ih _

theorem runPolls_all_failed (polls : List (Nat × PollResult)) :
    ∀ inst : InstanceInfo, (∀ tp ∈ polls, tp.2.payload = none) →
      (inst.runPolls polls).LastInstanceStatus = inst.LastInstanceStatus := by
  induction polls with
  | nil => intro inst _; rfl
  | cons x xs ih =>
    intro inst h
    obtain ⟨t, poll⟩ := x
    simp only [InstanceInfo.runPolls]
    rw [ih _ (fun tp htp => h tp (List.mem_cons_of_mem _ htp))]
    exact (runHealthCheck_failed inst t poll (h (t, poll) (List.mem_cons_self _ _))).2

/-- C11: after a poll that fails (request-construction error, transport error, status
other than 200, or a 200 response whose body does not decode) the instance is not alive
and `LastInstanceStatus` is what it was before the poll. Over a sequence of polls: when no
poll succeeds it keeps its initial value (nil for an instance never polled with
success), and after a successful decode of `p` followed only by failing polls it is
still `p`. -/
theorem C11_failed_poll_keeps_last_status (inst : InstanceInfo) (timestamp : Nat) :
    (∀ e, (inst.runHealthCheck timestamp (.requestError e)).Alive = false ∧
      (inst.runHealthCheck timestamp (.requestError e)).LastInstanceStatus
        = inst.LastInstanceStatus) ∧
    (∀ e, (inst.runHealthCheck timestamp (.transportError e)).Alive = false ∧
      (inst.runHealthCheck timestamp (.transportError e)).LastInstanceStatus
        = inst.LastInstanceStatus) ∧
    (∀ sc body, sc ≠ 200 →
      (inst.runHealthCheck timestamp (.response sc body)).Alive = false ∧
      (inst.runHealthCheck timestamp (.response sc body)).LastInstanceStatus
        = inst.LastInstanceStatus) ∧
    (∀ e, (inst.runHealthCheck timestamp (.response 200 (.error e))).Alive = false ∧
      (inst.runHealthCheck timestamp (.response 200 (.error e))).LastInstanceStatus
        = inst.LastInstanceStatus) ∧
    (∀ polls : List (Nat × PollResult), (∀ tp ∈ polls, tp.2.payload = none) →
      (inst.runPolls polls).LastInstanceStatus = inst.LastInstanceStatus) ∧
    (∀ (before after : List (Nat × PollResult)) (t : Nat) (p : InstanceStatus),
      (∀ tp ∈ after, tp.2.payload = none) →
      (inst.runPolls (before ++ (t, .response 200 (.ok p)) :: after)).LastInstanceStatus
        = some p) := by
  refine ⟨?_, ?_, ?_, ?_, ?_, ?_⟩
  · intro e
    exact runHealthCheck_failed inst timestamp _ rfl
  · intro e
    exact runHealthCheck_failed inst timestamp _ rfl
  · intro sc body hs
    apply runHealthCheck_failed
    cases body with
    | error e => rfl
    | ok p => simp [PollResult.payload, hs]
  · intro e
    exact runHealthCheck_failed inst timestamp _ rfl
  · intro polls h
    exact runPolls_all_failed polls inst h
  · intro before after t p h
    rw [runPolls_append]
    simp only [InstanceInfo.runPolls]
    rw [runPolls_all_failed after _ h]
    simp [InstanceInfo.runHealthCheck, InstanceInfo.updateStatus]

/-- Witness of C11: a timeout, then a 503, after one successful poll. -/
theorem C11_failed_poll_keeps_last_status_witness :
    (∀ tp ∈ [(7, PollResult.transportError "timeout"), (8, PollResult.response 503 (.error "EOF"))],
      tp.2.payload = none) ∧
    (freshInstance.runPolls ([] ++ (6, .response 200 (.ok ⟨true, []⟩))
      :: [(7, PollResult.transportError "timeout"),
          (8, PollResult.response 503 (.error "EOF"))])).LastInstanceStatus
      = some ⟨true, []⟩ :=
  ⟨by simp [PollResult.payload],
    (C11_failed_poll_keeps_last_status freshInstance 0).2.2.2.2.2 [] _ 6 ⟨true, []⟩
      (by simp [PollResult.payload])⟩

/-- C12: a poll that ends with a non-nil error `e` (from building the request, from the
transport, timeout included, or from decoding the body of a 200 response) leaves the
instance not alive, with `LastError = e`, and with `LastErrorUTCTimestamp` and the
last-poll timestamp both equal to the timestamp of this poll. -/
theorem C12_error_poll_records_error (inst : InstanceInfo) (timestamp : Nat)
    (poll : PollResult) (e : String) (h : poll.err = some e) :
    (inst.runHealthCheck timestamp poll).Alive = false ∧
    (inst.runHealthCheck timestamp poll).LastError = some e ∧
    (inst.runHealthCheck timestamp poll).LastErrorUTCTimestamp = some timestamp ∧
    (inst.runHealthCheck timestamp poll).LastErrorUTCTimestamp ≠ none ∧
    (inst.runHealthCheck timestamp poll).LastUTCTimestsamp = some timestamp := by
  cases poll with
  | requestError e1 =>
    simp only [PollResult.err, Option.some.injEq] at h
    simp [InstanceInfo.runHealthCheck, InstanceInfo.updateStatus, h]
  | transportError e1 =>
    simp only [PollResult.err, Option.some.injEq] at h
    simp [InstanceInfo.runHealthCheck, InstanceInfo.updateStatus, h]
  | response sc body =>
    by_cases hs : sc = 200
    · cases body with
      | error e1 =>
        simp [PollResult.err, hs] at h
        simp [InstanceInfo.runHealthCheck, InstanceInfo.updateStatus, hs, h]
      | ok p => simp [PollResult.err, hs] at h
    · simp [PollResult.err, hs] at h

/-- Witness of C12: the health endpoint does not answer within the timeout. -/
theorem C12_error_poll_records_error_witness :
    (PollResult.transportError "context deadline exceeded").err
      = some "context deadline exceeded" ∧
    (freshInstance.runHealthCheck 5 (.transportError "context deadline exceeded")).Alive
      = false ∧
    (freshInstance.runHealthCheck 5 (.transportError "context deadline exceeded")).LastError
      = some "context deadline exceeded" ∧
    (freshInstance.runHealthCheck 5
      (.transportError "context deadline exceeded")).LastErrorUTCTimestamp = some 5 :=
  ⟨rfl,
    (C12_error_poll_records_error freshInstance 5 (.transportError "context deadline exceeded")
      "context deadline exceeded" rfl).1,
    (C12_error_poll_records_error freshInstance 5 (.transportError "context deadline exceeded")
      "context deadline exceeded" rfl).2.1,
    (C12_error_poll_records_error freshInstance 5 (.transportError "context deadline exceeded")
      "context deadline exceeded" rfl).2.2.1⟩

theorem runHealthCheck_no_error (inst : InstanceInfo) (timestamp : Nat) (poll : PollResult)
    (h : poll.err = none) :
    (inst.runHealthCheck timestamp poll).LastErrorUTCTimestamp = inst.LastErrorUTCTimestamp ∧
    (inst.runHealthCheck timestamp poll).LastError = inst.LastError := by
  cases poll with
  | requestError e => simp [PollResult.err] at h
  | transportError e => simp [PollResult.err] at h
  | response sc body =>
    by_cases hs : sc = 200
    · cases body with
      | error e => simp [PollResult.err, hs] at h
      | ok p => simp [InstanceInfo.runHealthCheck, InstanceInfo.updateStatus, hs]
    · simp [InstanceInfo.runHealthCheck, InstanceInfo.updateStatus, hs]

theorem runHealthCheck_error (inst : InstanceInfo) (timestamp : Nat) (poll : PollResult)
    (h : poll.err ≠ none) :
    (inst.runHealthCheck timestamp poll).LastErrorUTCTimestamp = some timestamp := by
  cases poll with
  | requestError e => simp [InstanceInfo.runHealthCheck, InstanceInfo.updateStatus]
  | transportError e => simp [InstanceInfo.runHealthCheck, InstanceInfo.updateStatus]
  | response sc body =>
    by_cases hs : sc = 200
    · cases body with
      | error e => simp [InstanceInfo.runHealthCheck, InstanceInfo.updateStatus, hs]
      | ok p => simp [PollResult.err, hs] at h
    · simp [PollResult.err, hs] at h

theorem runPolls_no_error (polls : List (Nat × PollResult)) :
    ∀ inst : InstanceInfo, (∀ tp ∈ polls, tp.2.err = none) →
      (inst.runPolls polls).LastErrorUTCTimestamp = inst.LastErrorUTCTimestamp := by
  induction polls with
  | nil => intro inst _; rfl
  | cons x xs ih =>
    intro inst h
    obtain ⟨t, poll⟩ := x
    simp only [InstanceInfo.runPolls]
    rw [ih _ (fun tp htp => h tp (List.mem_cons_of_mem _ htp))]
    exact (runHealthCheck_no_error inst t poll (h (t, poll) (List.mem_cons_self _ _))).1

theorem runPolls_last_error (inst : InstanceInfo) (before after : List (Nat × PollResult))
    (t : Nat) (poll : PollResult) (he : poll.err ≠ none)
    (ha : ∀ tp ∈ after, tp.2.err = none) :
    (inst.runPolls (before ++ (t, poll) :: after)).LastErrorUTCTimestamp = some t := by
  rw [runPolls_append]
  simp only [InstanceInfo.runPolls]
  rw [runPolls_no_error after _ ha]
  exact runHealthCheck_error _ t poll he

/-- A list with an element satisfying `p` splits at the last such element. -/
theorem exists_last_split {α : Type} (p : α → Prop) (l : List α) (h : ∃ x ∈ l, p x) :
    ∃ before x after, l = before ++ x :: after ∧ p x ∧ ∀ y ∈ after, ¬ p y := by
  induction l with
  | nil => simp at h
  | cons a l ih =>
    by_cases hl : ∃ x ∈ l, p x
    · obtain ⟨before, x, after, e, hx, ha⟩ := ih hl
      exact ⟨a :: before, x, after, by rw [e]; rfl, hx, ha⟩
    · obtain ⟨x, hx, hpx⟩ := h
      rcases List.mem_cons.mp hx with rfl | hx1
      · exact ⟨[], x, l, rfl, hpx, fun y hy hpy => hl ⟨y, hy, hpy⟩⟩
      · exact absurd ⟨x, hx1, hpx⟩ hl

/-- C13 (amended): on an instance created with no last-error timestamp, after any
sequence of polls `LastErrorUTCTimestamp` is set if and only if some poll of the sequence
ended with a non-nil error, and it is then the timestamp of the most recent such poll: it
is set whenever the most recent poll ended with an error, and it stays set through
later polls that do not. -/
theorem C13_last_error_timestamp_sticky (inst : InstanceInfo)
    (h0 : inst.LastErrorUTCTimestamp = none) (polls : List (Nat × PollResult)) :
    ((inst.runPolls polls).LastErrorUTCTimestamp ≠ none ↔ ∃ tp ∈ polls, tp.2.err ≠ none) ∧
    (∀ (before after : List (Nat × PollResult)) (t : Nat) (poll : PollResult),
      polls = before ++ (t, poll) :: after → poll.err ≠ none →
      (∀ tp ∈ after, tp.2.err = none) →
      (inst.runPolls polls).LastErrorUTCTimestamp = some t) := by
  constructor
  · constructor
    · intro h
      by_contra hc
      apply h
      rw [runPolls_no_error polls inst, h0]
      intro tp htp
      by_contra hne
      exact hc ⟨tp, htp, hne⟩
    · intro h
      obtain ⟨before, x, after, e, hx, ha⟩ :=
        exists_last_split (fun tp : Nat × PollResult => tp.2.err ≠ none) polls h
      obtain ⟨t, poll⟩ := x
      rw [e, runPolls_last_error inst before after t poll hx
        (fun tp htp => by simpa using ha tp htp)]
      simp
  · intro before after t poll e he ha
    rw [e]
    exact runPolls_last_error inst before after t poll he ha

/-- Witness of C13 (amended): a timeout at time 1 followed by a healthy poll at time 2. -/
theorem C13_last_error_timestamp_sticky_witness :
    freshInstance.LastErrorUTCTimestamp = none ∧
    (freshInstance.runPolls [(1, .transportError "timeout"),
      (2, .response 200 (.ok ⟨true, []⟩))]).LastErrorUTCTimestamp = some 1 :=
  ⟨rfl, (C13_last_error_timestamp_sticky freshInstance rfl
    [(1, .transportError "timeout"), (2, .response 200 (.ok ⟨true, []⟩))]).2
      [] [(2, .response 200 (.ok ⟨true, []⟩))] 1 (.transportError "timeout") rfl
      (by simp [PollResult.err]) (by simp [PollResult.err])⟩

/-- C13 as stated fails: after a timeout at time 1 and a healthy poll at time 2 the most
recent poll ended without an error, and `LastErrorUTCTimestamp` is still set. -/
theorem C13_counterexample_sticky_timestamp :
    freshInstance.LastErrorUTCTimestamp = none ∧
    (PollResult.response 200 (.ok ⟨true, []⟩)).err = none ∧
    (freshInstance.runPolls [(1, .transportError "timeout"),
      (2, .response 200 (.ok ⟨true, []⟩))]).LastErrorUTCTimestamp = some 1 ∧
    (freshInstance.runPolls [(1, .transportError "timeout"),
      (2, .response 200 (.ok ⟨true, []⟩))]).Alive = true := by
  decide

/-- C14 (amended): a poll whose response arrives without a transport error but with a
status other than 200 leaves the instance not alive and sets the last-poll timestamp to
the timestamp of this poll; no error is synthesized and nothing is written to `LastError`
or `LastErrorUTCTimestamp`: they keep the values they had before the poll (nil exactly
when they were nil before). -/
theorem C14_non_200_poll (inst : InstanceInfo) (timestamp statusCode : Nat)
    (body : Except String InstanceStatus) (hs : statusCode ≠ 200) :
    (inst.runHealthCheck timestamp (.response statusCode body)).Alive = false ∧
    (inst.runHealthCheck timestamp (.response statusCode body)).LastUTCTimestsamp
      = some timestamp ∧
    (inst.runHealthCheck timestamp (.response statusCode body)).LastError = inst.LastError ∧
    (inst.runHealthCheck timestamp (.response statusCode body)).LastErrorUTCTimestamp
      = inst.LastErrorUTCTimestamp ∧
    ((inst.runHealthCheck timestamp (.response statusCode body)).LastError = none
      ↔ inst.LastError = none) ∧
    (PollResult.response statusCode body).err = none := by
  simp [InstanceInfo.runHealthCheck, InstanceInfo.updateStatus, PollResult.err, hs]

/-- Witness of C14 (amended): a 503 answer on an instance never polled before. -/
theorem C14_non_200_poll_witness :
    503 ≠ 200 ∧
    (freshInstance.runHealthCheck 9 (.response 503 (.error "EOF"))).Alive = false ∧
    (freshInstance.runHealthCheck 9 (.response 503 (.error "EOF"))).LastUTCTimestsamp
      = some 9 ∧
    (freshInstance.runHealthCheck 9 (.response 503 (.error "EOF"))).LastError
      = freshInstance.LastError :=
  ⟨by decide,
    (C14_non_200_poll freshInstance 9 503 (.error "EOF") (by decide)).1,
    (C14_non_200_poll freshInstance 9 503 (.error "EOF") (by decide)).2.1,
    (C14_non_200_poll freshInstance 9 503 (.error "EOF") (by decide)).2.2.1⟩

/-- C14 as stated fails: on an instance whose earlier poll timed out, a 503 answer leaves
the recorded last error in place, not nil. -/
theorem C14_counterexample_error_kept :
    (timedOutInstance.runHealthCheck 9 (.response 503 (.error "EOF"))).LastError
      = some "context deadline exceeded" ∧
    (timedOutInstance.runHealthCheck 9 (.response 503 (.error "EOF"))).LastError ≠ none := by
  decide

/-! ## Registration and the cursor -/

/-- C15: `AddServer` with a URL that parses returns nil and appends one target with the
given name, the parsed URL and liveness true: the earlier targets and the cursor are
unchanged, and a name already present is not rejected. With a URL that does not parse it
returns the parse error and leaves the pool as it was. -/
theorem C15_AddServer (parse : String → Except String String) (sp : ServerPool)
    (name rawUrl : String) :
    (∀ url, parse rawUrl = .ok url →
      sp.AddServer parse name rawUrl
        = (⟨sp.Servers ++ [⟨name, url, true⟩], sp.curr⟩, none) ∧
      (sp.AddServer parse name rawUrl).1.Servers.length = sp.Servers.length + 1 ∧
      (∀ i, i < sp.Servers.length →
        (sp.AddServer parse name rawUrl).1.Servers[i]? = sp.Servers[i]?) ∧
      (sp.AddServer parse name rawUrl).1.Servers[sp.Servers.length]?
        = some ⟨name, url, true⟩) ∧
    (∀ err, parse rawUrl = .error err →
      sp.AddServer parse name rawUrl = (sp, some err)) := by
  constructor
  · intro url h
    have e : sp.AddServer parse name rawUrl
        = (⟨sp.Servers ++ [⟨name, url, true⟩], sp.curr⟩, none) := by
      simp [ServerPool.AddServer, h]
    rw [e]
    refine ⟨rfl, by simp, ?_, by simp⟩
    intro i hi
    simp [List.getElem?_append_left hi]
  · intro err h
    simp [ServerPool.AddServer, h]

/-- Witness of C15: a second target under a name that is already in the pool, and a
malformed URL. -/
theorem C15_AddServer_witness :
    sampleParse "http://127.0.0.1:8003" = .ok "http://127.0.0.1:8003" ∧
    poolBothAlive.AddServer sampleParse "server1" "http://127.0.0.1:8003"
      = (⟨poolBothAlive.Servers ++ [⟨"server1", "http://127.0.0.1:8003", true⟩],
          poolBothAlive.curr⟩, none) ∧
    sampleParse "http://[::1" = .error "missing ']' in host" ∧
    poolBothAlive.AddServer sampleParse "server3" "http://[::1"
      = (poolBothAlive, some "missing ']' in host") :=
  ⟨by decide,
    ((C15_AddServer sampleParse poolBothAlive "server1" "http://127.0.0.1:8003").1
      "http://127.0.0.1:8003" (by decide)).1,
    by decide,
    (C15_AddServer sampleParse poolBothAlive "server3" "http://[::1").2
      "missing ']' in host" (by decide)⟩

/-- The two ways a call of `Next` on a non-empty pool goes: every target is dead and the
result is nil, or the first alive position lies `j` steps after the start and is
returned. -/
theorem Next_cases (sp : ServerPool) (hne : sp.Servers ≠ []) :
    ((∀ i, i < sp.Servers.length → sp.aliveAt i = false) ∧
      sp.Next = ({ sp with curr := (sp.curr + 1) % U64 }, .ok none)) ∨
    (∃ j, j < sp.Servers.length ∧
      sp.aliveAt (((sp.curr + 1) % U64 + j) % sp.Servers.length) = true ∧
      (∀ k, k < j → sp.aliveAt (((sp.curr + 1) % U64 + k) % sp.Servers.length) = false) ∧
      sp.Next =
        ({ sp with curr := if j = 0 then (sp.curr + 1) % U64
                           else (((sp.curr + 1) % U64 + j) % sp.Servers.length) % U64 },
          .ok (some (((sp.curr + 1) % U64 + j) % sp.Servers.length)))) := by
  by_cases hal : ∃ i, i < sp.Servers.length ∧ sp.aliveAt i = true
  · right
    obtain ⟨j, hj, ha, hd⟩ := exists_first_alive sp ((sp.curr + 1) % U64) hal
    exact ⟨j, hj, ha, hd, Next_some sp hne j hj ha hd⟩
  · left
    have hd : ∀ i, i < sp.Servers.length → sp.aliveAt i = false := by
      intro i hi
      by_contra hc
      exact hal ⟨i, hi, by simpa using hc⟩
    exact ⟨hd, Next_none sp hne hd⟩

/-- C16 (amended): the cursor is not monotone. On a non-empty pool, a `Next` call whose
start index is alive, or that finds every target dead, leaves the cursor at the
incremented value `(c + 1) mod 2^64`, larger than before unless the counter wraps; a call
whose start index is dead and that returns a target stores the index of that target (a
value below the pool length) in the cursor, whatever the cursor was before. -/
theorem C16_cursor_after_Next (sp : ServerPool) (hne : sp.Servers ≠ []) :
    ((sp.aliveAt ((sp.curr + 1) % U64 % sp.Servers.length) = true ∨
        ∀ i, i < sp.Servers.length → sp.aliveAt i = false) →
      sp.Next.1.curr = (sp.curr + 1) % U64 ∧
      (sp.curr + 1 < U64 → sp.curr < sp.Next.1.curr)) ∧
    (sp.aliveAt ((sp.curr + 1) % U64 % sp.Servers.length) = false →
      ∀ idx, sp.Next.2 = .ok (some idx) →
        sp.Next.1.curr = idx % U64 ∧ idx < sp.Servers.length) := by
  have hpos : 0 < sp.Servers.length := List.length_pos.mpr hne
  constructor
  · intro h
    have hc : sp.Next.1.curr = (sp.curr + 1) % U64 := by
      rcases h with h | h
      · have := Next_some sp hne 0 hpos (by simpa using h) (by intro k hk; omega)
        rw [this]
        simp
      · rw [Next_none sp hne h]
    refine ⟨hc, ?_⟩
    intro hlt
    rw [hc, Nat.mod_eq_of_lt hlt]
    omega
  · intro hdead idx hidx
    rcases Next_cases sp hne with ⟨_, hN⟩ | ⟨j, hj, ha, hd, hN⟩
    · rw [hN] at hidx
      simp at hidx
    · rw [hN] at hidx ⊢
      have hj0 : j ≠ 0 := by
        intro h0
        subst h0
        rw [Nat.add_zero, hdead] at ha
        exact Bool.noConfusion ha
      have e : ((sp.curr + 1) % U64 + j) % sp.Servers.length = idx := by
        simpa using hidx
      simp only [hj0, if_false, e]
      exact ⟨trivial, e ▸ Nat.mod_lt _ hpos⟩

/-- Witness of C16 (amended): on the pool whose second target is dead, with cursor 0, the
start index 1 is dead and the call stores the returned index 0. -/
theorem C16_cursor_after_Next_witness :
    poolOneDead.Servers ≠ [] ∧
    poolOneDead.aliveAt ((poolOneDead.curr + 1) % U64 % poolOneDead.Servers.length) = false ∧
    poolOneDead.Next.2 = .ok (some 0) ∧
    poolOneDead.Next.1.curr = 0 % U64 ∧ 0 < poolOneDead.Servers.length :=
  ⟨by decide, by decide, by decide,
    (C16_cursor_after_Next poolOneDead (by decide)).2 (by decide) 0 (by decide)⟩

/-- C16 as stated fails without any wrap-around: with cursor 10 on two targets of which
only the first is alive, the start index 1 is dead, the call returns target 0 and stores
0 in the cursor. -/
theorem C16_counterexample_cursor_decreases :
    poolSkipBack.curr = 10 ∧ poolSkipBack.Next.2 = .ok (some 0) ∧
    poolSkipBack.Next.1.curr = 0 ∧ poolSkipBack.Next.1.curr < poolSkipBack.curr := by
  decide

/-- C17 (amended): on a non-empty pool (its length within the `uint64` range), after a
`Next` call returns the target at index `idx` the cursor satisfies `cursor mod len = idx`:
it is the incremented cursor when the start index was alive and the stored index `idx`
otherwise. The following call then starts scanning at `(idx + 1) mod len`, provided the
increment of that call does not wrap the cursor from `2^64 - 1` to 0 (or the pool length
divides `2^64`). When `Next` returns nil, every target being dead, the cursor is the
incremented one, `(c + 1) mod 2^64`, and no skip-ahead store happened. -/
theorem C17_cursor_tracks_returned_index (sp : ServerPool) (hne : sp.Servers ≠ [])
    (hlen : sp.Servers.length ≤ U64) :
    (∀ idx, sp.Next.2 = .ok (some idx) →
      sp.Next.1.curr % sp.Servers.length = idx ∧
      (sp.aliveAt ((sp.curr + 1) % U64 % sp.Servers.length) = true →
        sp.Next.1.curr = (sp.curr + 1) % U64) ∧
      (sp.aliveAt ((sp.curr + 1) % U64 % sp.Servers.length) = false →
        sp.Next.1.curr = idx) ∧
      ((sp.Next.1.curr + 1 < U64 ∨ sp.Servers.length ∣ U64) →
        sp.Next.1.NextIndex.2 = .ok ((idx + 1) % sp.Servers.length))) ∧
    (sp.Next.2 = .ok none →
      (∀ s ∈ sp.Servers, s.Alive = false) ∧ sp.Next.1.curr = (sp.curr + 1) % U64) := by
  have hpos : 0 < sp.Servers.length := List.length_pos.mpr hne
  have hlen0 : sp.Servers.length ≠ 0 := Nat.pos_iff_ne_zero.mp hpos
  rcases Next_cases sp hne with ⟨hd, hN⟩ | ⟨j, hj, ha, hd, hN⟩
  · constructor
    · intro idx hidx
      rw [hN] at hidx
      simp at hidx
    · intro _
      exact ⟨(all_dead_iff sp).mpr hd, by rw [hN]⟩
  · constructor
    · intro idx hidx
      have e : ((sp.curr + 1) % U64 + j) % sp.Servers.length = idx := by
        rw [hN] at hidx
        simpa using hidx
      have hidxlt : idx < sp.Servers.length := e ▸ Nat.mod_lt _ hpos
      have hcur : sp.Next.1.curr % sp.Servers.length = idx := by
        rw [hN]
        by_cases hj0 : j = 0
        · subst hj0
          simpa using e
        · simp only [hj0, if_false, e]
          rw [Nat.mod_eq_of_lt (lt_of_lt_of_le hidxlt hlen), Nat.mod_eq_of_lt hidxlt]
      refine ⟨hcur, ?_, ?_, ?_⟩
      · intro hst
        have hj0 : j = 0 := by
          by_contra hj0
          have := hd 0 (Nat.pos_of_ne_zero hj0)
          rw [Nat.add_zero, hst] at this
          exact Bool.noConfusion this
        rw [hN]
        simp [hj0]
      · intro hst
        have hj0 : j ≠ 0 := by
          intro h0
          subst h0
          rw [Nat.add_zero, hst] at ha
          exact Bool.noConfusion ha
        rw [hN]
        simp only [hj0, if_false, e]
        exact Nat.mod_eq_of_lt (lt_of_lt_of_le hidxlt hlen)
      · intro hw
        have hS : sp.Next.1.Servers = sp.Servers := Next_servers sp
        unfold ServerPool.NextIndex
        simp only [hS, hlen0, if_false]
        rw [start_after sp.Servers.length sp.Next.1.curr idx hcur hw]
    · intro hnone
      rw [hN] at hnone
      simp at hnone

/-- Witness of C17 (amended): five targets, those at even indices alive, cursor 7: the
start index 3 is dead, target 4 is returned and stored, the next call starts at 0. -/
theorem C17_cursor_tracks_returned_index_witness :
    poolEvenAlive.Servers ≠ [] ∧ poolEvenAlive.Servers.length ≤ U64 ∧
    poolEvenAlive.Next.2 = .ok (some 4) ∧
    poolEvenAlive.Next.1.curr % poolEvenAlive.Servers.length = 4 ∧
    poolEvenAlive.Next.1.NextIndex.2 = .ok ((4 + 1) % poolEvenAlive.Servers.length) :=
  ⟨by decide, by decide, by decide,
    ((C17_cursor_tracks_returned_index poolEvenAlive (by decide) (by decide)).1 4
      (by decide)).1,
    ((C17_cursor_tracks_returned_index poolEvenAlive (by decide) (by decide)).1 4
      (by decide)).2.2.2 (Or.inl (by decide))⟩

/-- C17 as stated fails at the wrap-around: on three alive targets with cursor
`2^64 - 2`, `Next` returns index 0 and leaves the cursor at `2^64 - 1`; the following
call starts scanning at index 0 again, not at `(0 + 1) mod 3 = 1`. -/
theorem C17_counterexample_wrap :
    poolNearWrap.Next.2 = .ok (some 0) ∧
    poolNearWrap.Next.1.curr = 2 ^ 64 - 1 ∧
    poolNearWrap.Next.1.NextIndex.2 = .ok 0 ∧
    poolNearWrap.Next.1.NextIndex.2 ≠ .ok ((0 + 1) % poolNearWrap.Servers.length) ∧
    poolNearWrap.Next.1.Next.2 = .ok (some 0) := by
  decide

/-! ## Fallback to a second target and the bound on the work of one request -/

theorem setAliveAt_length (sp : ServerPool) (idx : Nat) (alive : Bool) :
    (sp.setAliveAt idx alive).Servers.length = sp.Servers.length := by
  simp [ServerPool.setAliveAt]

theorem setAliveAt_ne_nil (sp : ServerPool) (idx : Nat) (alive : Bool)
    (h : sp.Servers ≠ []) : (sp.setAliveAt idx alive).Servers ≠ [] := by
  intro hc
  have := setAliveAt_length sp idx alive
  rw [hc] at this
  exact h (List.length_eq_zero.mp this.symm)

theorem aliveAt_setAliveAt_self (sp : ServerPool) (idx : Nat) :
    (sp.setAliveAt idx false).aliveAt idx = false := by
  unfold ServerPool.aliveAt ServerPool.setAliveAt
  simp only [List.getElem?_modify_eq]
  cases sp.Servers[idx]? with
  | none => rfl
  | some s => rfl

/-- The index `Next` returns is alive. -/
theorem Next_result_alive (sp sp1 : ServerPool) (idx : Nat)
    (h : sp.Next = (sp1, .ok (some idx))) : sp.aliveAt idx = true := by
  by_cases hne : sp.Servers = []
  · have : sp.Next.2 = .error .divideByZero := by
      unfold ServerPool.Next ServerPool.NextIndex
      simp [hne]
    rw [h] at this
    cases this
  · rcases Next_cases sp hne with ⟨_, hN⟩ | ⟨j, _, ha, _, hN⟩
    · rw [hN] at h
      simp at h
    · rw [hN] at h
      have e : ((sp.curr + 1) % U64 + j) % sp.Servers.length = idx := by
        simpa using congrArg Prod.snd h
      rw [← e]
      exact ha

/-- On a non-empty pool `Next` returns nil or a target; it does not panic. -/
theorem Next_ok (sp : ServerPool) (hne : sp.Servers ≠ []) :
    ∃ sp1 r, sp.Next = (sp1, .ok r) ∧ sp1.Servers = sp.Servers := by
  rcases Next_cases sp hne with ⟨_, hN⟩ | ⟨j, _, _, _, hN⟩
  · exact ⟨_, _, hN, rfl⟩
  · exact ⟨_, _, hN, rfl⟩

/-- C18: the retry count is not reset by the fallback. When `ErrorHandler` of target `idx`
runs with the retries exhausted (retry count `>= MaxRetryCount`, which is
`MaxRetryCount` after the retries of one target) and the fallback re-dispatches to the
pool, the request reaches the pool, and the newly selected target `peer`, with the same
retry count. If the forward to `peer` ends in a transport error, `ErrorHandler` of `peer`
finds that count, sets `peer` dead at once and goes to the fallback: `peer` is forwarded
to once, with no backoff and no retry. -/
theorem C18_retry_count_not_reset (up : Upstream) (idx peer : Nat) (req : Request)
    (m : Machine) (sp1 : ServerPool) (fuel : Nat)
    (hr : MaxRetryCount ≤ Server.getRetryCount req)
    (hlo : -(2 ^ 63) ≤ Server.getAttemptCount req)
    (ha : Server.getAttemptCount req + 1 < MaxAttemptCount)
    (hnext : (m.pool.setAliveAt idx false).Next = (sp1, .ok (some peer)))
    (hfail : up peer m.sent = true) :
    run up (fuel + 5) (.ErrorHandler idx req) m
      = run up fuel
          (.FallbackHandler peer ⟨req.retry, some (Server.getAttemptCount req + 3)⟩)
          ⟨sp1.setAliveAt peer false, m.sent + 1,
            m.trace ++ [.transportError idx req, .setAlive idx false,
              .fallback idx ⟨req.retry, some (Server.getAttemptCount req + 1)⟩,
              .dispatch ⟨req.retry, some (Server.getAttemptCount req + 2)⟩,
              .forward peer ⟨req.retry, some (Server.getAttemptCount req + 2)⟩,
              .transportError peer ⟨req.retry, some (Server.getAttemptCount req + 2)⟩,
              .setAlive peer false]⟩ ∧
    Server.getRetryCount ⟨req.retry, some (Server.getAttemptCount req + 2)⟩
      = Server.getRetryCount req ∧
    peer ≠ idx := by
  have hmax : MaxAttemptCount = 3 := rfl
  have hnr : ¬ Server.getRetryCount req < MaxRetryCount := not_lt.mpr hr
  have w1 : wrapInt (Server.getAttemptCount req + 1) = Server.getAttemptCount req + 1 :=
    wrapInt_eq _ (by omega) (by omega)
  have w2 : wrapInt (Server.getAttemptCount req + 1 + 1) = Server.getAttemptCount req + 2 := by
    rw [wrapInt_eq _ (by omega) (by omega)]
    omega
  have w3 : wrapInt (Server.getAttemptCount req + 2 + 1) = Server.getAttemptCount req + 3 := by
    rw [wrapInt_eq _ (by omega) (by omega)]
    omega
  have hna : ¬ MaxAttemptCount ≤ Server.getAttemptCount req + 1 := not_le.mpr ha
  have e1 : Server.ErrorHandler idx req m
      = (.FallbackHandler idx ⟨req.retry, some (Server.getAttemptCount req + 1)⟩,
          ⟨m.pool.setAliveAt idx false, m.sent,
            m.trace ++ [.transportError idx req, .setAlive idx false]⟩) := by
    simp [Server.ErrorHandler, hnr, w1, Machine.emit]
  have g1 : Server.getAttemptCount ⟨req.retry, some (Server.getAttemptCount req + 1)⟩
      = Server.getAttemptCount req + 1 := rfl
  have g2 : Server.getAttemptCount ⟨req.retry, some (Server.getAttemptCount req + 2)⟩
      = Server.getAttemptCount req + 2 := rfl
  have gr : Server.getRetryCount ⟨req.retry, some (Server.getAttemptCount req + 2)⟩
      = Server.getRetryCount req := rfl
  refine ⟨?_, gr, ?_⟩
  · rw [show fuel + 5 = (fuel + 4) + 1 by omega, run_ErrorHandler, e1,
      show fuel + 4 = (fuel + 3) + 1 by omega, run_FallbackHandler]
    simp only [Server.FallbackHandler, g1, ge_iff_le, hna, if_false, w2, Machine.emit]
    rw [show fuel + 3 = (fuel + 2) + 1 by omega, run_ServeHTTP]
    simp only [ServerPool.ServeHTTP, Machine.emit, hnext]
    rw [show fuel + 2 = (fuel + 1) + 1 by omega, run_ProxyServeHTTP]
    simp only [ReverseProxy.ServeHTTP, Machine.emit, hfail, if_true]
    rw [run_ErrorHandler]
    simp only [Server.ErrorHandler, gr, hnr, if_false, g2, w3, Machine.emit,
      List.append_assoc, List.cons_append, List.nil_append]
  · intro hpi
    have h1 := Next_result_alive _ _ _ hnext
    rw [hpi, aliveAt_setAliveAt_self] at h1
    exact Bool.noConfusion h1

/-- Witness of C18: two alive targets, the retries on target 1 exhausted after four
forwards; the pool then selects target 0, whose first transport error marks it dead. -/
theorem C18_retry_count_not_reset_witness :
    MaxRetryCount ≤ Server.getRetryCount ⟨some 3, none⟩ ∧
    (ServerPool.setAliveAt ⟨poolBothAlive.Servers, 1⟩ 1 false).Next
      = (⟨(ServerPool.setAliveAt ⟨poolBothAlive.Servers, 1⟩ 1 false).Servers, 2⟩,
          .ok (some 0)) ∧
    run upAlwaysFail (1 + 5) (.ErrorHandler 1 ⟨some 3, none⟩)
        ⟨⟨poolBothAlive.Servers, 1⟩, 4, []⟩
      = run upAlwaysFail 1 (.FallbackHandler 0 ⟨some 3, some 3⟩)
          ⟨ServerPool.setAliveAt
              ⟨(ServerPool.setAliveAt ⟨poolBothAlive.Servers, 1⟩ 1 false).Servers, 2⟩ 0 false,
            5,
            [.transportError 1 ⟨some 3, none⟩, .setAlive 1 false,
              .fallback 1 ⟨some 3, some 1⟩,
              .dispatch ⟨some 3, some 2⟩,
              .forward 0 ⟨some 3, some 2⟩,
              .transportError 0 ⟨some 3, some 2⟩,
              .setAlive 0 false]⟩ :=
  ⟨by decide, by decide,
    (C18_retry_count_not_reset upAlwaysFail 1 0 ⟨some 3, none⟩
      ⟨⟨poolBothAlive.Servers, 1⟩, 4, []⟩
      ⟨(ServerPool.setAliveAt ⟨poolBothAlive.Servers, 1⟩ 1 false).Servers, 2⟩ 1
      (by decide) (by decide) (by decide) (by decide) rfl).1⟩

/-- The forwards to the first selected target: the request is relayed by one of at most
four forwards, or all four fail and the request, with retry count 3 and attempt count 2,
is handed back to the pool after the target was set dead. -/
theorem first_target_phase (up : Upstream) (p : Nat) (sp : ServerPool) (pre : List Event)
    (fuel : Nat) :
    (up p 0 = false →
      run up (fuel + 1) (.ProxyServeHTTP p ⟨none, none⟩) ⟨sp, 0, pre⟩
        = (.done (.proxied p), ⟨sp, 1, pre ++ [.forward p ⟨none, none⟩, .relayed p]⟩)) ∧
    (up p 0 = true → up p 1 = false →
      run up (fuel + 3) (.ProxyServeHTTP p ⟨none, none⟩) ⟨sp, 0, pre⟩
        = (.done (.proxied p), ⟨sp, 2, pre ++
            [.forward p ⟨none, none⟩, .transportError p ⟨none, none⟩, .sleep,
             .forward p ⟨some 1, none⟩, .relayed p]⟩)) ∧
    (up p 0 = true → up p 1 = true → up p 2 = false →
      run up (fuel + 5) (.ProxyServeHTTP p ⟨none, none⟩) ⟨sp, 0, pre⟩
        = (.done (.proxied p), ⟨sp, 3, pre ++
            [.forward p ⟨none, none⟩, .transportError p ⟨none, none⟩, .sleep,
             .forward p ⟨some 1, none⟩, .transportError p ⟨some 1, none⟩, .sleep,
             .forward p ⟨some 2, none⟩, .relayed p]⟩)) ∧
    (up p 0 = true → up p 1 = true → up p 2 = true → up p 3 = false →
      run up (fuel + 7) (.ProxyServeHTTP p ⟨none, none⟩) ⟨sp, 0, pre⟩
        = (.done (.proxied p), ⟨sp, 4, pre ++
            [.forward p ⟨none, none⟩, .transportError p ⟨none, none⟩, .sleep,
             .forward p ⟨some 1, none⟩, .transportError p ⟨some 1, none⟩, .sleep,
             .forward p ⟨some 2, none⟩, .transportError p ⟨some 2, none⟩, .sleep,
             .forward p ⟨some 3, none⟩, .relayed p]⟩)) ∧
    (up p 0 = true → up p 1 = true → up p 2 = true → up p 3 = true →
      run up (fuel + 9) (.ProxyServeHTTP p ⟨none, none⟩) ⟨sp, 0, pre⟩
        = run up fuel (.ServeHTTP ⟨some 3, some 2⟩) ⟨sp.setAliveAt p false, 4, pre ++
            [.forward p ⟨none, none⟩, .transportError p ⟨none, none⟩, .sleep,
             .forward p ⟨some 1, none⟩, .transportError p ⟨some 1, none⟩, .sleep,
             .forward p ⟨some 2, none⟩, .transportError p ⟨some 2, none⟩, .sleep,
             .forward p ⟨some 3, none⟩, .transportError p ⟨some 3, none⟩,
             .setAlive p false, .fallback p ⟨some 3, some 1⟩]⟩) := by
  have w1 : wrapInt 1 = 1 := by decide
  have w2 : wrapInt 2 = 2 := by decide
  have w3 : wrapInt 3 = 3 := by decide
  refine ⟨?_, ?_, ?_, ?_, ?_⟩
  · intro h0
    simp [run_ProxyServeHTTP, run_done, ReverseProxy.ServeHTTP, Machine.emit, h0]
  · intro h0 h1
    simp [run_ProxyServeHTTP, run_ErrorHandler, run_done, ReverseProxy.ServeHTTP,
      Server.ErrorHandler, Machine.emit, Server.getRetryCount, MaxRetryCount, w1, h0, h1]
  · intro h0 h1 h2
    simp [run_ProxyServeHTTP, run_ErrorHandler, run_done, ReverseProxy.ServeHTTP,
      Server.ErrorHandler, Machine.emit, Server.getRetryCount, MaxRetryCount, w1, w2,
      h0, h1, h2]
  · intro h0 h1 h2 h3
    simp [run_ProxyServeHTTP, run_ErrorHandler, run_done, ReverseProxy.ServeHTTP,
      Server.ErrorHandler, Machine.emit, Server.getRetryCount, MaxRetryCount, w1, w2, w3,
      h0, h1, h2, h3]
  · intro h0 h1 h2 h3
    simp [run_ProxyServeHTTP, run_ErrorHandler, run_FallbackHandler, ReverseProxy.ServeHTTP,
      Server.ErrorHandler, Server.FallbackHandler, Machine.emit, Server.getRetryCount,
      Server.getAttemptCount, MaxRetryCount, MaxAttemptCount, w1, w2, w3, h0, h1, h2, h3]

/-- The fallback to the pool after the first target was set dead: no alive target and a
503, or one forward to a second target, relayed or followed by the terminal 503. -/
theorem second_target_phase (up : Upstream) (sp sp2 : ServerPool) (tr : List Event)
    (fuel : Nat) :
    (sp.Next = (sp2, .ok none) →
      run up (fuel + 1) (.ServeHTTP ⟨some 3, some 2⟩) ⟨sp, 4, tr⟩
        = (.done .serviceUnavailable,
            ⟨sp2, 4, tr ++ [.dispatch ⟨some 3, some 2⟩, .respond503]⟩)) ∧
    (∀ p, sp.Next = (sp2, .ok (some p)) → up p 4 = false →
      run up (fuel + 2) (.ServeHTTP ⟨some 3, some 2⟩) ⟨sp, 4, tr⟩
        = (.done (.proxied p),
            ⟨sp2, 5, tr ++ [.dispatch ⟨some 3, some 2⟩, .forward p ⟨some 3, some 2⟩,
              .relayed p]⟩)) ∧
    (∀ p, sp.Next = (sp2, .ok (some p)) → up p 4 = true →
      run up (fuel + 4) (.ServeHTTP ⟨some 3, some 2⟩) ⟨sp, 4, tr⟩
        = (.done .serviceUnavailable,
            ⟨sp2.setAliveAt p false, 5,
              tr ++ [.dispatch ⟨some 3, some 2⟩, .forward p ⟨some 3, some 2⟩,
                .transportError p ⟨some 3, some 2⟩, .setAlive p false,
                .fallback p ⟨some 3, some 3⟩, .respond503]⟩)) := by
  have w3 : wrapInt 3 = 3 := by decide
  refine ⟨?_, ?_, ?_⟩
  · intro hN
    simp [run_ServeHTTP, run_done, ServerPool.ServeHTTP, Machine.emit, hN]
  · intro p hN h4
    simp [run_ServeHTTP, run_ProxyServeHTTP, run_done, ServerPool.ServeHTTP,
      ReverseProxy.ServeHTTP, Machine.emit, hN, h4]
  · intro p hN h4
    simp [run_ServeHTTP, run_ProxyServeHTTP, run_ErrorHandler, run_FallbackHandler, run_done,
      ServerPool.ServeHTTP, ReverseProxy.ServeHTTP, Server.ErrorHandler,
      Server.FallbackHandler, Machine.emit, Server.getRetryCount, Server.getAttemptCount,
      MaxRetryCount, MaxAttemptCount, w3, hN, h4]

/-- C19, on the code: on a pool with no targets the request ends in a panic (the division
by zero of `NextIndex`), neither in a relayed forward nor in a 503. On every non-empty
pool, for every liveness assignment and every pattern of transport failures, a request
that enters `ServeHTTP` without counters is handled within 14 function bodies and ends in
a forward that did not fail or in a 503; it is forwarded at most 5 times, at most 4 times
to the first selected target `p1` and at most once to one further target `p2`, with at
most 3 backoff sleeps, and at most 2 targets are set dead. -/
theorem C19_request_work_bounded :
    (∀ (c : Nat) (up : Upstream) (fuel : Nat),
      run up (fuel + 1) (.ServeHTTP ⟨none, none⟩) ⟨⟨[], c⟩, 0, []⟩
        = (.done (.panicked .divideByZero),
            ⟨⟨[], (c + 1) % U64⟩, 0, [.dispatch ⟨none, none⟩, .crashed .divideByZero]⟩)) ∧
    (∀ (sp : ServerPool) (up : Upstream) (fuel : Nat), sp.Servers ≠ [] → 14 ≤ fuel →
      ∃ (p1 p2 : Nat) (c : Call) (m : Machine), p1 ≠ p2 ∧
        (sp.Next.2 = .ok none ∨ sp.Next.2 = .ok (some p1)) ∧
        run up fuel (.ServeHTTP ⟨none, none⟩) ⟨sp, 0, []⟩ = (c, m) ∧
        ((c = .done .serviceUnavailable ∧ m.trace.getLast? = some .respond503) ∨
          (∃ i req pre, c = .done (.proxied i) ∧
            m.trace = pre ++ [.forward i req, .relayed i])) ∧
        forwardCount m.trace ≤ 5 ∧ m.sent = forwardCount m.trace ∧
        forwardCountTo p1 m.trace ≤ 4 ∧ forwardCountTo p2 m.trace ≤ 1 ∧
        forwardCount m.trace = forwardCountTo p1 m.trace + forwardCountTo p2 m.trace ∧
        markedDeadCount m.trace ≤ 2 ∧ retryCount m.trace ≤ 3) := by
  constructor
  · intro c up fuel
    have hN : ServerPool.Next ⟨[], c⟩ = (⟨[], (c + 1) % U64⟩, .error .divideByZero) := rfl
    simp [run_ServeHTTP, run_done, ServerPool.ServeHTTP, Machine.emit, hN]
  · intro sp up fuel hne hfuel
    obtain ⟨d, rfl⟩ := Nat.exists_eq_add_of_le hfuel
    obtain ⟨sp1, r1, hN1, hS1⟩ := Next_ok sp hne
    have hstart : ∀ p, r1 = some p →
        run up (14 + d) (.ServeHTTP ⟨none, none⟩) ⟨sp, 0, []⟩
          = run up (13 + d) (.ProxyServeHTTP p ⟨none, none⟩)
              ⟨sp1, 0, [.dispatch ⟨none, none⟩]⟩ := by
      intro p hp
      subst hp
      rw [show 14 + d = (13 + d) + 1 by omega, run_ServeHTTP]
      simp [ServerPool.ServeHTTP, Machine.emit, hN1]
    cases r1 with
    | none =>
      have hfull : run up (14 + d) (.ServeHTTP ⟨none, none⟩) ⟨sp, 0, []⟩
          = (.done .serviceUnavailable,
              ⟨sp1, 0, [.dispatch ⟨none, none⟩, .respond503]⟩) := by
        rw [show 14 + d = (13 + d) + 1 by omega, run_ServeHTTP]
        simp [ServerPool.ServeHTTP, Machine.emit, hN1, run_done]
      refine ⟨0, 1, _, _, by decide, Or.inl (by rw [hN1]), hfull, ?_⟩
      simp [forwardCount, forwardCountTo, markedDeadCount, retryCount]
    | some p1 =>
      have hrun := hstart p1 rfl
      have hsel : sp.Next.2 = .ok none ∨ sp.Next.2 = .ok (some p1) :=
        Or.inr (by rw [hN1])
      by_cases h0 : up p1 0 = true
      swap
      · have h0f : up p1 0 = false := by simpa using h0
        have hfull := (first_target_phase up p1 sp1 [.dispatch ⟨none, none⟩] (12 + d)).1 h0f
        rw [show 12 + d + 1 = 13 + d by omega, ← hrun] at hfull
        refine ⟨p1, p1 + 1, _, _, by omega, hsel, hfull,
          Or.inr ⟨p1, ⟨none, none⟩, [Event.dispatch ⟨none, none⟩], rfl, rfl⟩, ?_⟩
        simp [forwardCount, forwardCountTo, markedDeadCount, retryCount]
      by_cases h1 : up p1 1 = true
      swap
      · have h1f : up p1 1 = false := by simpa using h1
        have hfull :=
          (first_target_phase up p1 sp1 [.dispatch ⟨none, none⟩] (10 + d)).2.1 h0 h1f
        rw [show 10 + d + 3 = 13 + d by omega, ← hrun] at hfull
        refine ⟨p1, p1 + 1, _, _, by omega, hsel, hfull,
          Or.inr ⟨p1, ⟨some 1, none⟩, [Event.dispatch ⟨none, none⟩,
            .forward p1 ⟨none, none⟩, .transportError p1 ⟨none, none⟩, .sleep], rfl, rfl⟩, ?_⟩
        simp [forwardCount, forwardCountTo, markedDeadCount, retryCount]
      by_cases h2 : up p1 2 = true
      swap
      · have h2f : up p1 2 = false := by simpa using h2
        have hfull :=
          (first_target_phase up p1 sp1 [.dispatch ⟨none, none⟩] (8 + d)).2.2.1 h0 h1 h2f
        rw [show 8 + d + 5 = 13 + d by omega, ← hrun] at hfull
        refine ⟨p1, p1 + 1, _, _, by omega, hsel, hfull,
          Or.inr ⟨p1, ⟨some 2, none⟩, [Event.dispatch ⟨none, none⟩,
            .forward p1 ⟨none, none⟩, .transportError p1 ⟨none, none⟩, .sleep,
            .forward p1 ⟨some 1, none⟩, .transportError p1 ⟨some 1, none⟩, .sleep], rfl, rfl⟩, ?_⟩
        simp [forwardCount, forwardCountTo, markedDeadCount, retryCount]
      by_cases h3 : up p1 3 = true
      swap
      · have h3f : up p1 3 = false := by simpa using h3
        have hfull :=
          (first_target_phase up p1 sp1 [.dispatch ⟨none, none⟩] (6 + d)).2.2.2.1 h0 h1 h2 h3f
        rw [show 6 + d + 7 = 13 + d by omega, ← hrun] at hfull
        refine ⟨p1, p1 + 1, _, _, by omega, hsel, hfull,
          Or.inr ⟨p1, ⟨some 3, none⟩, [Event.dispatch ⟨none, none⟩,
            .forward p1 ⟨none, none⟩, .transportError p1 ⟨none, none⟩, .sleep,
            .forward p1 ⟨some 1, none⟩, .transportError p1 ⟨some 1, none⟩, .sleep,
            .forward p1 ⟨some 2, none⟩, .transportError p1 ⟨some 2, none⟩, .sleep], rfl, rfl⟩, ?_⟩
        simp [forwardCount, forwardCountTo, markedDeadCount, retryCount]
      have hrun2 := (first_target_phase up p1 sp1 [.dispatch ⟨none, none⟩] (4 + d)).2.2.2.2
        h0 h1 h2 h3
      rw [show 4 + d + 9 = 13 + d by omega, ← hrun] at hrun2
      have hne1 : (sp1.setAliveAt p1 false).Servers ≠ [] :=
        setAliveAt_ne_nil sp1 p1 false (by rw [hS1]; exact hne)
      obtain ⟨sp2, r2, hN2, _⟩ := Next_ok (sp1.setAliveAt p1 false) hne1
      cases r2 with
      | none =>
        have hfull := (second_target_phase up _ sp2
          ([.dispatch ⟨none, none⟩] ++
            [.forward p1 ⟨none, none⟩, .transportError p1 ⟨none, none⟩, .sleep,
             .forward p1 ⟨some 1, none⟩, .transportError p1 ⟨some 1, none⟩, .sleep,
             .forward p1 ⟨some 2, none⟩, .transportError p1 ⟨some 2, none⟩, .sleep,
             .forward p1 ⟨some 3, none⟩, .transportError p1 ⟨some 3, none⟩,
             .setAlive p1 false, .fallback p1 ⟨some 3, some 1⟩]) (3 + d)).1 hN2
        rw [show 3 + d + 1 = 4 + d by omega, ← hrun2] at hfull
        refine ⟨p1, p1 + 1, _, _, by omega, hsel, hfull, ?_⟩
        simp [forwardCount, forwardCountTo, markedDeadCount, retryCount]
      | some p2 =>
        have hp : p2 ≠ p1 := by
          intro hpi
          have ha := Next_result_alive _ _ _ hN2
          rw [hpi, aliveAt_setAliveAt_self] at ha
          exact Bool.noConfusion ha
        have hp1 : p1 ≠ p2 := fun h => hp h.symm
        by_cases h4 : up p2 4 = true
        · have hfull := (second_target_phase up _ sp2
            ([.dispatch ⟨none, none⟩] ++
              [.forward p1 ⟨none, none⟩, .transportError p1 ⟨none, none⟩, .sleep,
               .forward p1 ⟨some 1, none⟩, .transportError p1 ⟨some 1, none⟩, .sleep,
               .forward p1 ⟨some 2, none⟩, .transportError p1 ⟨some 2, none⟩, .sleep,
               .forward p1 ⟨some 3, none⟩, .transportError p1 ⟨some 3, none⟩,
               .setAlive p1 false, .fallback p1 ⟨some 3, some 1⟩]) d).2.2 p2 hN2 h4
          rw [show d + 4 = 4 + d by omega, ← hrun2] at hfull
          refine ⟨p1, p2, _, _, hp1, hsel, hfull, ?_⟩
          simp [forwardCount, forwardCountTo, markedDeadCount, retryCount, hp, hp1]
        · have h4f : up p2 4 = false := by simpa using h4
          have hfull := (second_target_phase up _ sp2
            ([.dispatch ⟨none, none⟩] ++
              [.forward p1 ⟨none, none⟩, .transportError p1 ⟨none, none⟩, .sleep,
               .forward p1 ⟨some 1, none⟩, .transportError p1 ⟨some 1, none⟩, .sleep,
               .forward p1 ⟨some 2, none⟩, .transportError p1 ⟨some 2, none⟩, .sleep,
               .forward p1 ⟨some 3, none⟩, .transportError p1 ⟨some 3, none⟩,
               .setAlive p1 false, .fallback p1 ⟨some 3, some 1⟩]) (2 + d)).2.1 p2 hN2 h4f
          rw [show 2 + d + 2 = 4 + d by omega, ← hrun2] at hfull
          refine ⟨p1, p2, _, _, hp1, hsel, hfull,
            Or.inr ⟨p2, ⟨some 3, some 2⟩,
              [.dispatch ⟨none, none⟩,
               .forward p1 ⟨none, none⟩, .transportError p1 ⟨none, none⟩, .sleep,
               .forward p1 ⟨some 1, none⟩, .transportError p1 ⟨some 1, none⟩, .sleep,
               .forward p1 ⟨some 2, none⟩, .transportError p1 ⟨some 2, none⟩, .sleep,
               .forward p1 ⟨some 3, none⟩, .transportError p1 ⟨some 3, none⟩,
               .setAlive p1 false, .fallback p1 ⟨some 3, some 1⟩,
               .dispatch ⟨some 3, some 2⟩], rfl, rfl⟩, ?_⟩
          simp [forwardCount, forwardCountTo, markedDeadCount, retryCount, hp, hp1]

/-- Witness of C19: two alive targets whose every forward fails: the bounds are reached,
5 forwards (4 to target 1, 1 to target 0), 3 sleeps, 2 targets set dead, then 503. -/
theorem C19_request_work_bounded_witness :
    poolBothAlive.Servers ≠ [] ∧ 14 ≤ 14 ∧
    (run upAlwaysFail 14 (.ServeHTTP ⟨none, none⟩) ⟨poolBothAlive, 0, []⟩).1
      = .done .serviceUnavailable ∧
    forwardCount (run upAlwaysFail 14 (.ServeHTTP ⟨none, none⟩)
      ⟨poolBothAlive, 0, []⟩).2.trace = 5 ∧
    markedDeadCount (run upAlwaysFail 14 (.ServeHTTP ⟨none, none⟩)
      ⟨poolBothAlive, 0, []⟩).2.trace = 2 ∧
    ∃ (p1 p2 : Nat) (c : Call) (m : Machine), p1 ≠ p2 ∧
      (poolBothAlive.Next.2 = .ok none ∨ poolBothAlive.Next.2 = .ok (some p1)) ∧
      run upAlwaysFail 14 (.ServeHTTP ⟨none, none⟩) ⟨poolBothAlive, 0, []⟩ = (c, m) ∧
      ((c = .done .serviceUnavailable ∧ m.trace.getLast? = some .respond503) ∨
        (∃ i req pre, c = .done (.proxied i) ∧
          m.trace = pre ++ [.forward i req, .relayed i])) ∧
      forwardCount m.trace ≤ 5 ∧ m.sent = forwardCount m.trace ∧
      forwardCountTo p1 m.trace ≤ 4 ∧ forwardCountTo p2 m.trace ≤ 1 ∧
      forwardCount m.trace = forwardCountTo p1 m.trace + forwardCountTo p2 m.trace ∧
      markedDeadCount m.trace ≤ 2 ∧ retryCount m.trace ≤ 3 :=
  ⟨by decide, by decide, by decide, by decide, by decide,
    C19_request_work_bounded.2 poolBothAlive upAlwaysFail 14 (by decide) (by decide)⟩

end Golb
